import Mathlib

/-!
Verification of the teslamattress multilingual static-site pipeline.

The JavaScript sources (scripts/extract.js, scripts/translate.js,
scripts/verify.js and the build script) are shallowly embedded below.
All string scanning is done over `List Char`, mirroring the JavaScript
regular-expression and `String.prototype.replace` semantics of the
source: a global replace scans the original text left to right,
matches are non-overlapping, and replacement text is never rescanned.
Braces that occur in string literals are written with `\x7b` / `\x7d`
escapes throughout.
-/

namespace SiteChars

/-- Left brace character. -/
def lbC : Char := Char.ofNat 123

/-- Right brace character. -/
def rbC : Char := Char.ofNat 125

/-- Double-quote character. -/
def quoteC : Char := Char.ofNat 34

/-- Apostrophe character. -/
def aposC : Char := Char.ofNat 39

end SiteChars

namespace SiteStr

open SiteChars

/-- Does the list start with the given literal? -/
def startsWithL : List Char → List Char → Bool
  | [], _ => true
  | _ :: _, [] => false
  | p :: ps, c :: cs => p = c && startsWithL ps cs

/-- Does the literal `pat` occur anywhere in `l`? Mirrors JS `String.includes`. -/
def containsL (pat : List Char) : List Char → Bool
  | [] => startsWithL pat []
  | c :: cs => startsWithL pat (c :: cs) || containsL pat cs

/-- Case-insensitive containment, for the `/<script/i`-style tests. -/
def containsCIL (pat : List Char) (l : List Char) : Bool :=
  containsL (pat.map Char.toLower) (l.map Char.toLower)

/-- Split at the first occurrence of the literal `pat`, returning the text
before it and the text after it.  `none` when `pat` does not occur. -/
def splitLit (pat : List Char) : List Char → Option (List Char × List Char)
  | [] => if startsWithL pat [] then some ([], []) else none
  | c :: cs =>
    if startsWithL pat (c :: cs) then some ([], (c :: cs).drop pat.length)
    else
      match splitLit pat cs with
      | some (b, a) => some (c :: b, a)
      | none => none

/-- Replace the first occurrence of the literal `pat` by `repl`
(JS `String.replace` with a string pattern). -/
def replaceFirstL (l pat repl : List Char) : List Char :=
  match splitLit pat l with
  | some (b, a) => b ++ repl ++ a
  | none => l

/-- Scanner for `countLit`: the counter suppresses rescanning inside an
already-counted match (JS global matches are non-overlapping and computed
left to right). -/
def countLitGo (pat : List Char) : Nat → List Char → Nat
  | _ + 1, [] => 0
  | k + 1, _ :: cs => countLitGo pat k cs
  | 0, [] => 0
  | 0, c :: cs =>
    if pat.length ≠ 0 && startsWithL pat (c :: cs) then
      1 + countLitGo pat (pat.length - 1) cs
    else countLitGo pat 0 cs

/-- Count of non-overlapping occurrences of the literal `pat`, scanning left
to right, as a JS global regex over a literal would produce. -/
def countLit (pat l : List Char) : Nat := countLitGo pat 0 l

/-- Scanner for `replaceAllL`, same skip-counter discipline. -/
def replaceAllGo (pat repl : List Char) : Nat → List Char → List Char
  | _ + 1, [] => []
  | k + 1, _ :: cs => replaceAllGo pat repl k cs
  | 0, [] => []
  | 0, c :: cs =>
    if pat.length ≠ 0 && startsWithL pat (c :: cs) then
      repl ++ replaceAllGo pat repl (pat.length - 1) cs
    else c :: replaceAllGo pat repl 0 cs

/-- Replace all non-overlapping occurrences of the literal `pat` by `repl`.
Mirrors a JS global replace built from an escaped literal. -/
def replaceAllL (l pat repl : List Char) : List Char :=
  replaceAllGo pat repl 0 l

/-- JS whitespace test (sufficient for the ASCII content handled here). -/
def isWs (c : Char) : Bool := c.isWhitespace

/-- JS `String.trim` over char lists. -/
def trimL (l : List Char) : List Char :=
  ((l.dropWhile isWs).reverse.dropWhile isWs).reverse

end SiteStr

namespace Build

open SiteChars SiteStr

/-- Characters allowed in the section part of a `\x7b\x7bt.section.key\x7d\x7d`
translation placeholder: `[a-zA-Z0-9_]`. -/
def isSectionChar (c : Char) : Bool :=
  c.isAlpha || c.isDigit || c = '_'

/-- Characters allowed in the key part of a translation placeholder:
the regex class `[a-zA-Z0-9_&+'"(). -]` from build.js. -/
def isKeyChar (c : Char) : Bool :=
  c.isAlpha || c.isDigit || c = '_' || c = '&' || c = '+' || c = aposC ||
  c = quoteC || c = '(' || c = ')' || c = '.' || c = ' ' || c = '-'

/-- The literal opener of a translation placeholder. -/
def phOpen : List Char := "\x7b\x7bt.".data

/-- Try to match the translation-placeholder regex
`\x7b\x7bt\.([a-zA-Z0-9_]+)\.([a-zA-Z0-9_&+'"(). -]+)\x7d\x7d` at the head of
`l`.  Returns the section, the key and the total length of the match. -/
def tryMatchPH (l : List Char) : Option (List Char × List Char × Nat) :=
  if startsWithL phOpen l then
    let rest := l.drop phOpen.length
    let sec := rest.takeWhile isSectionChar
    if sec.isEmpty then none
    else
      match rest.drop sec.length with
      | '.' :: rest2 =>
        let key := rest2.takeWhile isKeyChar
        if key.isEmpty then none
        else
          match rest2.drop key.length with
          | c1 :: c2 :: _ =>
            if c1 = rbC && c2 = rbC then
              some (sec, key, phOpen.length + sec.length + 1 + key.length + 2)
            else none
          | _ => none
      | _ => none
  else none

theorem tryMatchPH_pos {l : List Char} {sec key : List Char} {n : Nat}
    (h : tryMatchPH l = some (sec, key, n)) : 0 < n := by
  unfold tryMatchPH at h
  split at h
  · dsimp only at h
    split at h
    · exact absurd h (by simp)
    · split at h
      · split at h
        · exact absurd h (by simp)
        · split at h
          · split at h
            · simp only [Option.some.injEq, Prod.mk.injEq] at h
              omega
            · exact absurd h (by simp)
          · exact absurd h (by simp)
      · exact absurd h (by simp)
  · exact absurd h (by simp)

/-- The locale dictionary as loaded from a locale JSON file:
sections mapping keys to strings. -/
def LocaleData := List (String × List (String × String))

/-- Association-list lookup (JS property access on a JSON object). -/
def alist.find? (k : String) : List (String × String) → Option String
  | [] => none
  | (k0, v) :: rest => if k0 = k then some v else alist.find? k rest

/-- Section lookup in locale data. -/
def sectionOf (d : LocaleData) (sec : String) : Option (List (String × String)) :=
  match d with
  | [] => none
  | (s, m) :: rest => if s = sec then some m else sectionOf rest sec

/-- The combined lookup performed by `replaceTranslations`:
`localeData[section] && localeData[section][key] !== undefined`.  A present key
is found whatever its value, including the empty string. -/
def lookup2 (d : LocaleData) (sec key : String) : Option String :=
  match sectionOf d sec with
  | some m => alist.find? key m
  | none => none

/-- The body of the replacement callback in `replaceTranslations`
(build.js lines 91-99): a hit returns the dictionary value, a miss warns and
returns the match text unchanged. -/
def rtEmit (d : LocaleData) (sec key : String) (matchText : List Char) :
    List Char × List (String × String) :=
  match lookup2 d sec key with
  | some v => (v.data, [])
  | none => (matchText, [(sec, key)])

/-- The left-to-right global scan of `replaceTranslations`.  The `skip`
counter suppresses rescanning inside an already-consumed match, mirroring the
fact that a JS global replace computes matches over the original string. -/
def rtGo (d : LocaleData) : Nat → List Char → List Char × List (String × String)
  | _ + 1, [] => ([], [])
  | k + 1, _ :: rest => rtGo d k rest
  | 0, [] => ([], [])
  | 0, c :: rest =>
    match tryMatchPH (c :: rest) with
    | some (sec, key, n) =>
      let m := (c :: rest).take n
      let (rep, dg) := rtEmit d (String.mk sec) (String.mk key) m
      let (out, dg') := rtGo d (n - 1) rest
      (rep ++ out, dg ++ dg')
    | none =>
      let (out, dg) := rtGo d 0 rest
      (c :: out, dg)

/-- `replaceTranslations` from build.js: resolve every
`\x7b\x7bt.section.key\x7d\x7d` placeholder from the locale data, leaving the
placeholder text verbatim (and emitting a missing-key diagnostic) when the
lookup fails. -/
def replaceTranslations (html : String) (d : LocaleData) :
    String × List (String × String) :=
  let (out, dg) := rtGo d 0 html.data
  (String.mk out, dg)

/-- A skip state only drops the chars it was asked to drop. -/
theorem rtGo_skip (d : LocaleData) :
    ∀ (k : Nat) (l : List Char), rtGo d (k + 1) l = rtGo d k l.tail := by
  intro k l
  cases l <;> cases k <;> rfl

/-- On an empty dictionary every placeholder misses, so the scan reproduces
its input exactly. -/
theorem rtGo_empty_id : ∀ (N : Nat) (l : List Char), l.length ≤ N →
    (rtGo [] 0 l).1 = l := by
  intro N
  induction N with
  | zero =>
    intro l h
    have : l = [] := List.length_eq_zero.mp (Nat.le_zero.mp h)
    subst this
    rfl
  | succ N ih =>
    intro l h
    cases l with
    | nil => rfl
    | cons c rest =>
      simp only [rtGo]
      cases hm : tryMatchPH (c :: rest) with
      | none =>
        simp only []
        have hrest : rest.length ≤ N := by simp at h; omega
        have := ih rest hrest
        simp [this]
      | some v =>
        obtain ⟨sec, key, n⟩ := v
        have hn : 0 < n := tryMatchPH_pos hm
        simp only [rtEmit, lookup2, sectionOf]
        have hdrop : (rtGo ([] : LocaleData) (n - 1) rest).1 = rest.drop (n - 1) := by
          have hsk : ∀ (k : Nat) (l : List Char), rtGo ([] : LocaleData) k l =
              rtGo [] 0 (l.drop k) := by
            intro k
            induction k with
            | zero => intro l; rfl
            | succ k ihk =>
              intro l
              rw [rtGo_skip, ihk]
              cases l <;> simp [List.drop]
          rw [hsk]
          exact ih _ (by
            have h1 : rest.length ≤ N := by simp at h; omega
            calc (rest.drop (n - 1)).length ≤ rest.length := by
                  simp [List.length_drop]
              _ ≤ N := h1)
        simp only [hdrop]
        have : (c :: rest).take n ++ rest.drop (n - 1) = c :: rest := by
          cases n with
          | zero => omega
          | succ m =>
            simp only [List.take, Nat.succ_sub_one]
            rw [List.cons_append, List.take_append_drop]
        simpa using this

/-- Base URL of the site (build.js). -/
def BASE_URL : String := "https://teslamattress.com"

/-- Per-locale configuration record (build.js `LOCALE_CONFIG` values). -/
structure LocaleCfg where
  locale_path : String
  og_locale : String
  html_lang : String
  hreflang : String
  flag : String
  name : String
deriving DecidableEq, Repr

/-- `LOCALE_CONFIG` from build.js, in declaration order. -/
def LOCALE_CONFIG : List (String × LocaleCfg) :=
  [("en", ⟨"", "en_US", "en", "en", "GB", "English"⟩),
   ("de", ⟨"de/", "de_DE", "de", "de", "DE", "Deutsch"⟩),
   ("fr", ⟨"fr/", "fr_FR", "fr", "fr", "FR", "Francais"⟩),
   ("no", ⟨"no/", "nb_NO", "nb", "nb", "NO", "Norsk"⟩),
   ("da", ⟨"da/", "da_DK", "da", "da", "DK", "Dansk"⟩),
   ("sv", ⟨"sv/", "sv_SE", "sv", "sv", "SE", "Svenska"⟩)]

/-- `ALL_LOCALES = Object.keys(LOCALE_CONFIG)`. -/
def ALL_LOCALES : List String := LOCALE_CONFIG.map Prod.fst

/-- Configuration lookup `LOCALE_CONFIG[loc]` (total on `ALL_LOCALES`). -/
def cfgOf (loc : String) : LocaleCfg :=
  match LOCALE_CONFIG.find? (fun p => p.1 = loc) with
  | some p => p.2
  | none => ⟨"", "", "", "", "", ""⟩

/-- One `<link rel="alternate">` element of the hreflang block. -/
def hreflangLinkTag (hl url : String) : String :=
  "<link rel=\"alternate\" hreflang=\"" ++ hl ++ "\" href=\"" ++ url ++ "\">"

/-- The absolute URL of a page in a locale. -/
def localeUrl (loc pagePath : String) : String :=
  BASE_URL ++ "/" ++ (cfgOf loc).locale_path ++ pagePath

/-- `generateHreflangTags` (build.js lines 52-61) before the final join:
one tag per configured locale, then the `x-default` tag pointing at the
unprefixed path. -/
def generateHreflangTagsList (pagePath : String) : List String :=
  (ALL_LOCALES.map fun loc =>
    hreflangLinkTag (cfgOf loc).hreflang (localeUrl loc pagePath)) ++
  [hreflangLinkTag "x-default" (BASE_URL ++ "/" ++ pagePath)]

/-- `generateHreflangTags`: the joined block inserted into pages. -/
def generateHreflangTags (pagePath : String) : String :=
  String.intercalate "\n    " (generateHreflangTagsList pagePath)

/-- `generateOgLocaleAlternates` (build.js lines 64-69): one
`og:locale:alternate` meta tag per configured locale other than the current
one. -/
def generateOgLocaleAlternatesList (currentLocale : String) : List String :=
  (ALL_LOCALES.filter fun loc => loc ≠ currentLocale).map fun loc =>
    "<meta property=\"og:locale:alternate\" content=\"" ++
      (cfgOf loc).og_locale ++ "\">"

/-- `generateLangSwitcher` (build.js lines 72-87): the per-locale link list. -/
def generateLangSwitcherLinks (pagePath currentLocale : String) : List String :=
  ALL_LOCALES.map fun loc =>
    let lCfg := cfgOf loc
    let url := "/" ++ lCfg.locale_path ++ pagePath
    let active := if loc = currentLocale then " class=\"lang-active\"" else ""
    "<li><a href=\"" ++ url ++ "\"" ++ active ++ ">" ++ lCfg.flag ++ " " ++
      lCfg.name ++ "</a></li>"

/-- A page descriptor from `pages.json`. -/
structure Page where
  pageKey : String
  template : String
  output : String
deriving DecidableEq, Repr

/-- `page.output.replace(/index\.html$/, '').replace(/\.html$/, '')`:
the public path of a page. -/
def pagePathOf (output : String) : String :=
  let s := if output.endsWith "index.html" then
    String.mk (output.data.take (output.length - "index.html".length))
  else output
  if s.endsWith ".html" then
    String.mk (s.data.take (s.length - ".html".length))
  else s

/-- One `<url>` entry of the generated sitemap (build.js lines 138-173),
kept structured: the serialization below concatenates the same fields the
source interpolates. -/
structure SitemapUrlEntry where
  loc : String
  lastmod : String
  changefreq : String
  priority : String
  hreflangs : List String
  xdefault : String
deriving DecidableEq, Repr

/-- A sitemap `xhtml:link` alternate element. -/
def xhtmlLink (hl url : String) : String :=
  "      <xhtml:link rel=\"alternate\" hreflang=\"" ++ hl ++ "\" href=\"" ++
    url ++ "\"/>"

/-- The entry built for one `(page, locale)` pair inside `generateSitemap`:
priority and changefreq per page identity, and hreflang alternates iterating
`ALL_LOCALES` (not the set of locales being built). -/
def sitemapEntryFor (today : String) (page : Page) (loc : String) :
    SitemapUrlEntry :=
  let pagePath := pagePathOf page.output
  let cfg := cfgOf loc
  let url := BASE_URL ++ "/" ++ cfg.locale_path ++ pagePath
  let priority0 :=
    if page.pageKey = "home" then "1.0"
    else if page.output.endsWith "index.html" then "0.8"
    else "0.6"
  let priority := if page.pageKey = "disclosure" then "0.3" else priority0
  let changefreq :=
    if page.pageKey = "home" || page.output.endsWith "index.html" then "weekly"
    else "monthly"
  let hreflangs := ALL_LOCALES.map fun l =>
    xhtmlLink (cfgOf l).hreflang (BASE_URL ++ "/" ++ (cfgOf l).locale_path ++ pagePath)
  let xdefault := xhtmlLink "x-default" (BASE_URL ++ "/" ++ pagePath)
  ⟨url, today, changefreq, priority, hreflangs, xdefault⟩

/-- `generateSitemap`'s entry list: outer loop over pages, inner loop over the
locales actually loaded for this build (`Object.keys(locales)`). -/
def generateSitemapEntries (localeKeys : List String) (pages : List Page)
    (today : String) : List SitemapUrlEntry :=
  pages.flatMap fun page => localeKeys.map fun loc =>
    sitemapEntryFor today page loc

/-- Serialization of one sitemap entry, matching the template literal in
build.js lines 164-171. -/
def renderSitemapEntry (e : SitemapUrlEntry) : String :=
  "  <url>\n    <loc>" ++ e.loc ++ "</loc>\n    <lastmod>" ++ e.lastmod ++
  "</lastmod>\n    <changefreq>" ++ e.changefreq ++
  "</changefreq>\n    <priority>" ++ e.priority ++ "</priority>\n" ++
  String.intercalate "\n" e.hreflangs ++ "\n" ++ e.xdefault ++ "\n  </url>\n"

end Build

namespace Extract

open SiteChars SiteStr

/-- The accumulating dictionary state of extract.js: the `shared` scope and
the page scopes, in insertion order (JS object property order). -/
structure LState where
  shared : List (String × String)
  sections : List (String × List (String × String))
deriving DecidableEq, Repr

/-- The empty starting state (the `_meta` block is static data, not touched by
any extraction pass). -/
def initState : LState := ⟨[], []⟩

/-- Set a key in an association list, preserving the position of an existing
key and appending a new one (JS object assignment semantics). -/
def setKey (m : List (String × String)) (k v : String) : List (String × String) :=
  match m with
  | [] => [(k, v)]
  | (k0, v0) :: rest => if k0 = k then (k0, v) :: rest else (k0, v0) :: setKey rest k v

/-- Association-list lookup. -/
def getKey (m : List (String × String)) (k : String) : Option String :=
  match m with
  | [] => none
  | (k0, v) :: rest => if k0 = k then some v else getKey rest k

/-- Lookup of a section in the state. -/
def getSection (st : LState) (sec : String) : Option (List (String × String)) :=
  match st.sections.find? (fun p => p.1 = sec) with
  | some p => some p.2
  | none => none

/-- Replace (or create) a whole section of the section list. -/
def setSectionList (sec : String) (m : List (String × String)) :
    List (String × List (String × String)) →
    List (String × List (String × String))
  | [] => [(sec, m)]
  | (s, m0) :: rest =>
    if s = sec then (s, m) :: rest else (s, m0) :: setSectionList sec m rest

/-- Replace (or create) a whole section of the state. -/
def setSection (st : LState) (sec : String) (m : List (String × String)) :
    LState :=
  ⟨st.shared, setSectionList sec m st.sections⟩

/-- `addString` (extract.js lines 27-30): create the section if needed and
assign the key, overwriting any previous value. -/
def addString (st : LState) (sec key value : String) : LState :=
  match getSection st sec with
  | some m => setSection st sec (setKey m key value)
  | none => setSection st sec [(key, value)]

/-- `addShared` (extract.js lines 32-34): `if (!locale.shared[key])
locale.shared[key] = value`.  A missing key *or a key holding a falsy value
(the empty string)* is (re)assigned; any other existing value survives. -/
def addShared (st : LState) (key value : String) : LState :=
  match getKey st.shared key with
  | some v => if v = "" then ⟨setKey st.shared key value, st.sections⟩ else st
  | none => ⟨setKey st.shared key value, st.sections⟩

/-- The suffix returned by `splitLit` is no longer than the input. -/
theorem splitLit_suffix_le {pat : List Char} :
    ∀ {l b a : List Char}, splitLit pat l = some (b, a) → a.length ≤ l.length := by
  intro l
  induction l with
  | nil =>
    intro b a h
    unfold splitLit at h
    split at h
    · simp only [Option.some.injEq, Prod.mk.injEq] at h
      simp [← h.2]
    · exact absurd h (by simp)
  | cons c cs ih =>
    intro b a h
    unfold splitLit at h
    split at h
    · simp only [Option.some.injEq, Prod.mk.injEq] at h
      rw [← h.2]
      simp [List.length_drop]
    · split at h
      · rename_i b0 a0 heq
        simp only [Option.some.injEq, Prod.mk.injEq] at h
        have := ih heq
        rw [← h.2]
        simp only [List.length_cons]
        omega
      · exact absurd h (by simp)

/-- Scanner for `stripTags`: a match `<[^>]+>` drops the tag; the counter
skips the rest of a recognized tag. -/
def stripTagsGo : Nat → List Char → List Char
  | _ + 1, [] => []
  | k + 1, _ :: cs => stripTagsGo k cs
  | 0, [] => []
  | 0, c :: cs =>
    if c = '<' then
      match splitLit ['>'] cs with
      | some (tag, _) =>
        if tag.isEmpty then c :: stripTagsGo 0 cs
        else stripTagsGo (tag.length + 1) cs
      | none => c :: stripTagsGo 0 cs
    else c :: stripTagsGo 0 cs

/-- `text.replace(/<[^>]+>/g, '')`: drop HTML tags (used by `shouldSkip`). -/
def stripTags (l : List Char) : List Char := stripTagsGo 0 l

/-- The character class `[\d.,/%€$£+×~≈°]` of the pure-symbol skip test. -/
def isNumericSymbolChar (c : Char) : Bool :=
  c.isDigit || c = '.' || c = ',' || c = '/' || c = '%' ||
  c = Char.ofNat 8364 || c = '$' || c = Char.ofNat 163 || c = '+' ||
  c = Char.ofNat 215 || c = '~' || c = Char.ofNat 8776 || c = Char.ofNat 176

/-- `/^#?\d+$/`: an optional hash then digits only. -/
def isBareNumericId (l : List Char) : Bool :=
  match l with
  | '#' :: rest => !rest.isEmpty && rest.all Char.isDigit
  | _ => !l.isEmpty && l.all Char.isDigit

/-- `shouldSkip` (extract.js lines 36-43). -/
def shouldSkip (text : List Char) : Bool :=
  let clean := trimL (stripTags text)
  if clean.isEmpty || clean.length < 2 then true
  else if !clean.isEmpty && clean.all isNumericSymbolChar then true
  else if isBareNumericId clean then true
  else if startsWithL "\x7b\x7b".data clean then true
  else false

/-- The placeholder text `\x7b\x7bt.sec.key\x7d\x7d`. -/
def phText (sec key : String) : List Char :=
  "\x7b\x7bt.".data ++ sec.data ++ ['.'] ++ key.data ++ "\x7d\x7d".data

/-- Attempt, at the head of `l`, the pattern `lead ++ (run of p) ++ sfx`
(a literal, a greedy character-class run, a literal).  Returns the captured
run and the remainder after the suffix. -/
def attemptLRS (lead sfx : List Char) (p : Char → Bool) (l : List Char) :
    Option (List Char × List Char) :=
  if startsWithL lead l then
    let rest := l.drop lead.length
    let cap := rest.takeWhile p
    let rest2 := rest.drop cap.length
    if startsWithL sfx rest2 then some (cap, rest2.drop sfx.length) else none
  else none

/-- First match of `lead ++ (run of p) ++ sfx` anywhere in the text, scanning
left to right and retrying at every position, as a regex engine does.
Returns `(before, capture, after)`. -/
def findLRS (lead sfx : List Char) (p : Char → Bool) :
    List Char → Option (List Char × List Char × List Char)
  | [] => none
  | c :: cs =>
    match attemptLRS lead sfx p (c :: cs) with
    | some (cap, after) => some ([], cap, after)
    | none =>
      match findLRS lead sfx p cs with
      | some (b, cap, a) => some (c :: b, cap, a)
      | none => none

/-- Attempt the self-closing meta-tag pattern
`lead ++ [^"]* ++ '"' ++ \s* ++ /? ++ '>'` at the head of `l`; returns the
remainder after the `>`. -/
def attemptMetaSelfClose (lead : List Char) (l : List Char) :
    Option (List Char) :=
  if startsWithL lead l then
    let rest := l.drop lead.length
    let cap := rest.takeWhile (fun c => c ≠ quoteC)
    match rest.drop cap.length with
    | c :: rest2 =>
      if c = quoteC then
        let rest3 := rest2.dropWhile isWs
        match rest3 with
        | '/' :: '>' :: r => some r
        | '>' :: r => some r
        | _ => none
      else none
    | [] => none
  else none

/-- First match of the self-closing meta-tag pattern anywhere in the text;
returns `(before, after)`. -/
def findMetaSelf (lead : List Char) : List Char → Option (List Char × List Char)
  | [] => none
  | c :: cs =>
    match attemptMetaSelfClose lead (c :: cs) with
    | some after => some ([], after)
    | none =>
      match findMetaSelf lead cs with
      | some (b, a) => some (c :: b, a)
      | none => none

/-- First `<title>([\s\S]*?)</title>` match: `(before, content, after)`. -/
def findTitle (l : List Char) : Option (List Char × List Char × List Char) :=
  match splitLit "<title>".data l with
  | some (before, rest) =>
    match splitLit "</title>".data rest with
    | some (content, after) => some (before, content, after)
    | none => none
  | none => none

/-- The seven `metaTags` patterns of extract.js lines 66-74, as the literal
text up to and including `content="`, paired with their dictionary keys. -/
def metaTags : List (String × String) :=
  [("<meta name=\"title\" content=\"", "meta_name_title"),
   ("<meta name=\"description\" content=\"", "meta_description"),
   ("<meta name=\"keywords\" content=\"", "meta_keywords"),
   ("<meta property=\"og:title\" content=\"", "og_title"),
   ("<meta property=\"og:description\" content=\"", "og_description"),
   ("<meta name=\"twitter:title\" content=\"", "twitter_title"),
   ("<meta name=\"twitter:description\" content=\"", "twitter_description")]

/-- One step of the `metaTags` loop (extract.js lines 76-82): on a match, a
whitespace-only value leaves everything untouched; otherwise the raw value is
stored and the `content` attribute is rewritten to a placeholder. -/
def metaTagStep (pk : String) (acc : LState × List Char) (pat : String × String) :
    LState × List Char :=
  let (st, html) := acc
  let lead := pat.1.data
  match findLRS lead [quoteC] (fun c => c ≠ quoteC) html with
  | some (b, val, a) =>
    if (trimL val).isEmpty then (st, html)
    else
      (addString st pk pat.2 (String.mk val),
       b ++ lead ++ phText pk pat.2 ++ [quoteC] ++ a)
  | none => (st, html)

/-- `extractMeta` (extract.js lines 59-85): the `<title>` branch stores the
trimmed title unconditionally, then each meta tag is processed in order. -/
def extractMeta (st : LState) (pk : String) (html : List Char) :
    LState × List Char :=
  let (st, html) :=
    match findTitle html with
    | some (b, t, a) =>
      (addString st pk "meta_title" (String.mk (trimL t)),
       b ++ "<title>".data ++ phText pk "meta_title" ++ "</title>".data ++ a)
    | none => (st, html)
  metaTags.foldl (metaTagStep pk) (st, html)

/-- `templateStructural` (extract.js lines 90-119). -/
def templateStructural (html : List Char) : List Char :=
  let html := replaceFirstL html "<html lang=\"en\">".data
    "<html lang=\"\x7b\x7bhtmlLang\x7d\x7d\">".data
  let html :=
    match findLRS "<link rel=\"canonical\" href=\"".data "\">".data
        (fun c => c ≠ quoteC) html with
    | some (b, _, a) =>
      b ++ ("<link rel=\"canonical\" href=\"\x7b\x7bcanonicalUrl\x7d\x7d\">" ++
        "\n    \x7b\x7bhreflangTags\x7d\x7d").data ++ a
    | none => html
  let html :=
    match findMetaSelf "<meta property=\"og:url\" content=\"".data html with
    | some (b, a) =>
      b ++ "<meta property=\"og:url\" content=\"\x7b\x7bpageUrl\x7d\x7d\">".data ++ a
    | none => html
  let html :=
    match findMetaSelf "<meta name=\"twitter:url\" content=\"".data html with
    | some (b, a) =>
      b ++ "<meta name=\"twitter:url\" content=\"\x7b\x7bpageUrl\x7d\x7d\">".data ++ a
    | none => html
  let html :=
    match findMetaSelf "<meta property=\"og:locale\" content=\"".data html with
    | some (b, a) =>
      b ++ ("<meta property=\"og:locale\" content=\"\x7b\x7bogLocale\x7d\x7d\">" ++
        "\n    \x7b\x7bogLocaleAlternates\x7d\x7d").data ++ a
    | none => html
  html

/-- JSON values as parsed by `JSON.parse` inside `extractJsonLd`. -/
inductive Json where
  | null
  | bool (b : Bool)
  | num (n : Int)
  | str (s : String)
  | arr (items : List Json)
  | obj (fields : List (String × Json))
deriving BEq, Repr

/-- Property lookup on a JSON object (keys are unique in parsed JSON). -/
def lookupJ (fields : List (String × Json)) (k : String) : Option Json :=
  match fields with
  | [] => none
  | (k0, v) :: rest => if k0 = k then some v else lookupJ rest k

/-- Property assignment on a JSON object, preserving insertion order. -/
def setJ (fields : List (String × Json)) (k : String) (v : Json) :
    List (String × Json) :=
  match fields with
  | [] => [(k, v)]
  | (k0, v0) :: rest =>
    if k0 = k then (k0, v) :: rest else (k0, v0) :: setJ rest k v

/-- JavaScript truthiness of a JSON value. -/
def jsTruthy : Json → Bool
  | Json.null => false
  | Json.bool b => b
  | Json.num n => n ≠ 0
  | Json.str s => s ≠ ""
  | Json.arr _ => true
  | Json.obj _ => true

/-- The fields extracted by the structured-data pass, in source order
(extract.js lines 148-151). -/
def translatableFields : List String :=
  ["description", "reviewBody", "headline", "slogan", "name", "text", "award"]

/-- The `@type` values whose `name` field is never extracted
(extract.js line 160). -/
def brandNameTypes : List String :=
  ["Brand", "Organization", "Person", "ImageObject", "Rating",
   "AggregateRating", "AggregateOffer", "Offer",
   "EducationalOccupationalCredential"]

/-- `/^\d{4}-\d{2}-\d{2}$/`. -/
def isIsoDate (l : List Char) : Bool :=
  match l with
  | [a, b, c, d, h1, e, f, h2, g, i] =>
    a.isDigit && b.isDigit && c.isDigit && d.isDigit && h1 = '-' &&
    e.isDigit && f.isDigit && h2 = '-' && g.isDigit && i.isDigit
  | _ => false

/-- The placeholder as a `String`. -/
def phString (sec key : String) : String := String.mk (phText sec key)

/-- One iteration of the `translatableFields` loop inside `walkAndExtract`
(extract.js lines 153-168): a string value longer than 10 characters is
extracted unless it is a URL, an ISO date, a schema.org identifier, or a
`name` on an exempted `@type`. -/
def extractField (pk pre : String) (field : String)
    (acc : List (String × Json) × LState × Nat) :
    List (String × Json) × LState × Nat :=
  let (fields, st, kidx) := acc
  match lookupJ fields field with
  | some (Json.str s) =>
    if s.length > 10 then
      if startsWithL "http".data s.data || startsWithL "https".data s.data then acc
      else if isIsoDate s.data then acc
      else if containsL "schema.org".data s.data then acc
      else if field = "name" &&
          (match lookupJ fields "@type" with
           | some t => jsTruthy t &&
               (match t with
                | Json.str ty => brandNameTypes.contains ty
                | _ => false)
           | none => false) then acc
      else if field = "name" &&
          (match lookupJ fields "@type" with
           | some (Json.str ty) => ty = "ListItem"
           | _ => false) &&
          (match lookupJ fields "item" with
           | some it => jsTruthy it
           | none => false) then acc
      else
        let kidx := kidx + 1
        let k := pre ++ "_" ++ field ++ "_" ++ toString kidx
        (setJ fields field (Json.str (phString pk k)), addString st pk k s, kidx)
    else acc
  | _ => acc

/-- `walkAndExtract` (extract.js lines 141-176), structured on a fuel bound:
objects run the field-extraction pass and then recurse into their
(post-mutation) object and array values; arrays recurse into every item.
The wrapper below supplies fuel exceeding the structural depth, so the fuel
case is never reached on parsed JSON. -/
def walkFuel (pk pre : String) : Nat → Json → LState → Nat → Json × LState × Nat
  | 0, j, st, kidx => (j, st, kidx)
  | fuel + 1, Json.arr items, st, kidx =>
    let (items', st', kidx') := items.foldl
      (fun (acc : List Json × LState × Nat) item =>
        let (done, st0, k0) := acc
        let (item', st1, k1) := walkFuel pk pre fuel item st0 k0
        (done ++ [item'], st1, k1))
      ([], st, kidx)
    (Json.arr items', st', kidx')
  | fuel + 1, Json.obj fields, st, kidx =>
    let (fields1, st1, kidx1) :=
      translatableFields.foldl (fun acc f => extractField pk pre f acc)
        (fields, st, kidx)
    let (fields2, st2, kidx2) := fields1.foldl
      (fun (acc : List (String × Json) × LState × Nat) kv =>
        let (done, st0, k0) := acc
        match kv.2 with
        | Json.arr _ =>
          let (v', st1, k1) := walkFuel pk pre fuel kv.2 st0 k0
          (done ++ [(kv.1, v')], st1, k1)
        | Json.obj _ =>
          let (v', st1, k1) := walkFuel pk pre fuel kv.2 st0 k0
          (done ++ [(kv.1, v')], st1, k1)
        | _ => (done ++ [kv], st0, k0))
      ([], st1, kidx1)
    (Json.obj fields2, st2, kidx2)
  | _ + 1, j, st, kidx => (j, st, kidx)

/-- The JSON-LD block delimiters. -/
def jsonLdOpenTag : List Char := "<script type=\"application/ld+json\">".data

/-- Closing tag of a JSON-LD block. -/
def jsonLdCloseTag : List Char := "</script>".data

/-- The global scan of `extractJsonLd` (extract.js lines 124-189).
`parse` and `stringify8` stand for the JavaScript runtime primitives
`JSON.parse` and `JSON.stringify(·, null, 8)`; a block that fails to parse
is left untouched.  The two vestigial post-stringify replaces in the source
substitute a literal for itself and are therefore identities.  The fuel
counts scan iterations and is bounded by the number of blocks. -/
def jsonLdGo (parse : String → Option Json) (stringify8 : Json → String)
    (pk : String) : Nat → Nat → LState → List Char → LState × List Char
  | 0, _, st, l => (st, l)
  | fuel + 1, idx, st, l =>
    match splitLit jsonLdOpenTag l with
    | none => (st, l)
    | some (before, rest) =>
      match splitLit jsonLdCloseTag rest with
      | none => (st, l)
      | some (content, after) =>
        let idx' := idx + 1
        match parse (String.mk content) with
        | none =>
          let (st', out) := jsonLdGo parse stringify8 pk fuel idx' st after
          (st', before ++ jsonLdOpenTag ++ content ++ jsonLdCloseTag ++ out)
        | some json =>
          let pre := "jsonld_" ++ toString idx'
          -- the depth of a parsed value is bounded by the length of the
          -- text it was parsed from, so this fuel is never exhausted
          let (json', st1, _) := walkFuel pk pre (content.length + 1) json st 0
          let newJsonStr := (stringify8 json').data
          let (st2, out) := jsonLdGo parse stringify8 pk fuel idx' st1 after
          (st2, before ++ jsonLdOpenTag ++ "\n    ".data ++ newJsonStr ++
            "\n    ".data ++ jsonLdCloseTag ++ out)

/-- `extractJsonLd`. -/
def extractJsonLd (parse : String → Option Json) (stringify8 : Json → String)
    (st : LState) (pk : String) (html : List Char) : LState × List Char :=
  jsonLdGo parse stringify8 pk (html.length + 1) 0 st html

/-- The `navTexts` vocabulary (extract.js lines 196-203), in source order. -/
def navTexts : List (String × String) :=
  [("Reviews", "nav_reviews"), ("Compare", "nav_compare"),
   ("Discounts", "nav_discounts"), ("About", "nav_about"),
   ("Comparison", "nav_comparison"), ("All Reviews", "nav_all_reviews")]

/-- Replace the nav label texts inside one `<ul class="nav-links">` block. -/
def navContentReplace (content : List Char) : List Char :=
  navTexts.foldl
    (fun c p => replaceAllL c (">" ++ p.1 ++ "</a>").data
      (">\x7b\x7bt.shared." ++ p.2 ++ "\x7d\x7d</a>").data)
    content

/-- The global `<ul class="nav-links">…</ul>` rewrite of `templateNav`:
each block's labels are templated and a `\x7b\x7blangSwitcher\x7d\x7d`
placeholder is appended after the closing tag.  Fuel counts scan
iterations. -/
def navGo : Nat → List Char → List Char
  | 0, l => l
  | fuel + 1, l =>
    match splitLit "<ul class=\"nav-links\">".data l with
    | none => l
    | some (before, rest) =>
      match splitLit "</ul>".data rest with
      | none => l
      | some (content, after) =>
        before ++ "<ul class=\"nav-links\">".data ++ navContentReplace content ++
          "</ul>".data ++ "\n        \x7b\x7blangSwitcher\x7d\x7d".data ++
          navGo fuel after

/-- `templateNav` (extract.js lines 194-224): the shared nav keys are always
added, then every nav-links block is rewritten. -/
def templateNav (st : LState) (html : List Char) : LState × List Char :=
  let st := navTexts.foldl (fun s p => addShared s p.2 p.1) st
  (st, navGo (html.length + 1) html)

/-! ### Phase 5: body-text extraction -/

/-- The per-page, per-category key counters of `extractBodyText`. -/
def CntMap := List (String × Nat)

/-- Counter lookup. -/
def getCnt (cnt : CntMap) (pre : String) : Option Nat :=
  match cnt with
  | [] => none
  | (k, n) :: rest => if k = pre then some n else getCnt rest pre

/-- Counter assignment. -/
def setCnt (cnt : CntMap) (pre : String) (n : Nat) : CntMap :=
  match cnt with
  | [] => [(pre, n)]
  | (k, n0) :: rest =>
    if k = pre then (k, n) :: rest else (k, n0) :: setCnt rest pre n

/-- `nextKey` (extract.js lines 231-234): the first key of a category is the
bare category name, later ones get `_2`, `_3`, … suffixes. -/
def nextKey (cnt : CntMap) (pre : String) : String × CntMap :=
  let n := (getCnt cnt pre).getD 0 + 1
  (if n = 1 then pre else pre ++ "_" ++ toString n, setCnt cnt pre n)

/-- Attempt `(<TAG[^>]*>)(.+?)(</TAG>)` at the head of `l`; returns the full
open tag, the (lazy, nonempty) content and the text after the close tag. -/
def attemptTag (tg : String) (l : List Char) :
    Option (List Char × List Char × List Char) :=
  if startsWithL ("<" ++ tg).data l then
    let rest := l.drop (tg.length + 1)
    let attrs := rest.takeWhile (fun c => c ≠ '>')
    match rest.drop attrs.length with
    | '>' :: rest2 =>
      match rest2 with
      | [] => none
      | c2 :: rest3 =>
        match splitLit ("</" ++ tg ++ ">").data rest3 with
        | some (more, after) =>
          some (("<" ++ tg).data ++ attrs ++ ['>'], c2 :: more, after)
        | none => none
    | _ => none
  else none

/-- First match of the tag pattern anywhere in the text:
`(before, openTag, content, after)`. -/
def findTagMatch (tg : String) : List Char → Option (List Char × List Char × List Char × List Char)
  | [] => none
  | c :: cs =>
    match attemptTag tg (c :: cs) with
    | some (o, content, after) => some ([], o, content, after)
    | none =>
      match findTagMatch tg cs with
      | some (b, o, cont, a) => some (c :: b, o, cont, a)
      | none => none

/-- One heading/paragraph-style replacement step: on a match whose content is
not skipped, store the trimmed content under the next category key and
replace the content by a placeholder. -/
def tagReplaceStep (pk tg pre : String) (matchLine : List Char)
    (st : LState) (cnt : CntMap) (cur : List Char) :
    LState × CntMap × List Char :=
  match findTagMatch tg matchLine with
  | some (b, o, content, a) =>
    if !shouldSkip content then
      let (k, cnt') := nextKey cnt pre
      (addString st pk k (String.mk (trimL content)), cnt',
       b ++ o ++ phText pk k ++ ("</" ++ tg ++ ">").data ++ a)
    else (st, cnt, cur)
  | none => (st, cnt, cur)

/-- The heading sub-pass (extract.js lines 259-268).  The source matches each
level against the unmodified `line` while assigning the replacement to
`lines[i]`, so a later level's replacement discards an earlier one; this is
mirrored by passing the original `line` as the match text of every level. -/
def headingPass (pk : String) (line : List Char) (st : LState) (cnt : CntMap) :
    LState × CntMap × List Char :=
  ["h1", "h2", "h3", "h4"].foldl
    (fun (acc : LState × CntMap × List Char) tg =>
      let (st, cnt, cur) := acc
      tagReplaceStep pk tg tg line st cnt cur)
    (st, cnt, line)

/-- Lower-casing used by the shared-key normalizers. -/
def lowerL (l : List Char) : List Char := l.map Char.toLower

/-- Is `c` in `[a-z0-9]`? -/
def isLowerAlnum (c : Char) : Bool :=
  (('a' ≤ c && c ≤ 'z') || ('0' ≤ c && c ≤ '9'))

/-- Auxiliary bound for the underscore-collapse scanner. -/
theorem dropWhile_length_le (p : Char → Bool) :
    ∀ l : List Char, (l.dropWhile p).length ≤ l.length := by
  intro l
  induction l with
  | nil => simp
  | cons c cs ih =>
    by_cases h : p c
    · simp only [List.dropWhile_cons_of_pos h, List.length_cons]
      omega
    · simp [List.dropWhile_cons_of_neg h]

/-- `.replace(/[^a-z0-9]+/g, '_')`: collapse every maximal run of
non-alphanumerics into one underscore.  Structured on a skip counter so the
definition reduces; a run of `k` skipped characters simply drops them. -/
def collapseGo : Nat → List Char → List Char
  | _ + 1, [] => []
  | k + 1, _ :: cs => collapseGo k cs
  | 0, [] => []
  | 0, c :: cs =>
    if isLowerAlnum c then c :: collapseGo 0 cs
    else '_' :: collapseGo (cs.takeWhile (fun d => !isLowerAlnum d)).length cs

/-- `.replace(/[^a-z0-9]+/g, '_')`. -/
def collapseNonAlnum (l : List Char) : List Char := collapseGo 0 l

/-- `.replace(/^_|_$/g, '')`: strip one leading and one trailing
underscore. -/
def stripEdgeUnderscores (l : List Char) : List Char :=
  let l := match l with
    | '_' :: rest => rest
    | other => other
  match l.reverse with
  | '_' :: rest => rest.reverse
  | _ => l

/-- The shared key generated for a table header text
(extract.js line 288). -/
def thSharedKey (text : List Char) : String :=
  String.mk ("th_".data ++ stripEdgeUnderscores (collapseNonAlnum (lowerL text)))

/-- The shared key generated for a `data-label` value
(extract.js line 302): every non-alphanumeric becomes its own
underscore, and nothing is stripped. -/
def dlSharedKey (val : List Char) : String :=
  String.mk ("dl_".data ++
    (lowerL val).map (fun c => if isLowerAlnum c then c else '_'))

/-- Attempt `<th[^>]*>([^<\x7b]+)</th>` at the head of `l`; returns the
captured text and the length of the whole match. -/
def attemptTh (l : List Char) : Option (List Char × Nat) :=
  if startsWithL "<th".data l then
    let rest := l.drop 3
    let attrs := rest.takeWhile (fun c => c ≠ '>')
    match rest.drop attrs.length with
    | '>' :: rest2 =>
      let cap := rest2.takeWhile (fun c => c ≠ '<' && c ≠ lbC)
      if cap.isEmpty then none
      else if startsWithL "</th>".data (rest2.drop cap.length) then
        some (cap, 3 + attrs.length + 1 + cap.length + 5)
      else none
    | _ => none
  else none

/-- Find the first `<th>` match at a position `≥ pos`; returns the absolute
match position and the capture and match length. -/
def findThFrom (cur : List Char) (pos : Nat) : Option (Nat × List Char × Nat) :=
  go (cur.drop pos) pos
where
  go : List Char → Nat → Option (Nat × List Char × Nat)
    | [], _ => none
    | c :: cs, at_ =>
      match attemptTh (c :: cs) with
      | some (cap, len) => some (at_, cap, len)
      | none => go cs (at_ + 1)

/-- The live `re.exec` loop over table headers (extract.js lines 283-293):
the regex cursor (`lastIndex`) advances past each match while the line is
rewritten in place by a first-occurrence string replace. -/
def thLoop (fuel : Nat) (st : LState) (cur : List Char) (pos : Nat) :
    LState × List Char :=
  match fuel with
  | 0 => (st, cur)
  | fuel + 1 =>
    match findThFrom cur pos with
    | none => (st, cur)
    | some (at_, cap, len) =>
      let text := trimL cap
      if !text.isEmpty && !shouldSkip text then
        let shKey := thSharedKey text
        let st := addShared st shKey (String.mk text)
        let cur := replaceFirstL cur (">".data ++ text ++ "</th>".data)
          (">\x7b\x7bt.shared.".data ++ shKey.data ++ "\x7d\x7d</th>".data)
        thLoop fuel st cur (at_ + len)
      else
        thLoop fuel st cur (at_ + len)

/-- Attempt `data-label="([^"]+)"` at the head of `l`. -/
def attemptDataLabel (l : List Char) : Option (List Char × Nat) :=
  if startsWithL "data-label=\"".data l then
    let rest := l.drop 12
    let cap := rest.takeWhile (fun c => c ≠ quoteC)
    if cap.isEmpty then none
    else match rest.drop cap.length with
      | c :: _ => if c = quoteC then some (cap, 12 + cap.length + 1) else none
      | [] => none
  else none

/-- Find the first `data-label` match at a position `≥ pos`. -/
def findDlFrom (cur : List Char) (pos : Nat) : Option (Nat × List Char × Nat) :=
  go (cur.drop pos) pos
where
  go : List Char → Nat → Option (Nat × List Char × Nat)
    | [], _ => none
    | c :: cs, at_ =>
      match attemptDataLabel (c :: cs) with
      | some (cap, len) => some (at_, cap, len)
      | none => go cs (at_ + 1)

/-- The live `re.exec` loop over `data-label` attributes
(extract.js lines 297-307). -/
def dlLoop (fuel : Nat) (st : LState) (cur : List Char) (pos : Nat) :
    LState × List Char :=
  match fuel with
  | 0 => (st, cur)
  | fuel + 1 =>
    match findDlFrom cur pos with
    | none => (st, cur)
    | some (at_, val, len) =>
      if !startsWithL "\x7b\x7b".data val then
        let shKey := dlSharedKey val
        let st := addShared st shKey (String.mk val)
        let cur := replaceFirstL cur ("data-label=\"".data ++ val ++ [quoteC])
          ("data-label=\"\x7b\x7bt.shared.".data ++ shKey.data ++
            "\x7d\x7d\"".data)
        dlLoop fuel st cur (at_ + len)
      else
        dlLoop fuel st cur (at_ + len)

/-- The `spanClasses` vocabulary (extract.js lines 310-317). -/
def spanClasses : List String :=
  ["section-tag", "review-badge", "score-label", "stat-label",
   "stat-key", "savings-text", "savings-amount", "code-label",
   "partner-desc", "partner-discount", "spec-label",
   "finding-value", "finding-basis", "tldr-highlight-label",
   "review-updated", "discount-badge-new", "discount-badge",
   "discount-badge-none", "region-popup-subtitle"]

/-- The `divClasses` vocabulary (extract.js line 330). -/
def divClasses : List String := ["stat-number", "stat-label", "footer-logo"]

/-- The `linkClasses` vocabulary (extract.js line 365). -/
def linkClasses : List String := ["discount-details-link", "discount-cta-btn"]

/-- Replace every hyphen by an underscore (the class-name normalization of
the body-text pass). -/
def hyphensToUnderscores (cls : String) : String :=
  String.mk (cls.data.map fun c => if c = '-' then '_' else c)

/-- Attempt `(<span class="CLS[^"]*">)([^<]+)(</span>)` at the head of `l`:
returns the full open tag, the content and the remainder. -/
def attemptSpan (cls : String) (l : List Char) :
    Option (List Char × List Char × List Char) :=
  let lead := ("<span class=\"" ++ cls).data
  if startsWithL lead l then
    let rest := l.drop lead.length
    let extra := rest.takeWhile (fun c => c ≠ quoteC)
    match rest.drop extra.length with
    | c :: rest2 =>
      if c = quoteC then
        match rest2 with
        | '>' :: rest3 =>
          let content := rest3.takeWhile (fun c => c ≠ '<')
          if content.isEmpty then none
          else if startsWithL "</span>".data (rest3.drop content.length) then
            some (lead ++ extra ++ [quoteC, '>'], content,
              (rest3.drop content.length).drop "</span>".length)
          else none
        | _ => none
      else none
    | [] => none
  else none

/-- First span-class match anywhere in the text. -/
def findSpan (cls : String) :
    List Char → Option (List Char × List Char × List Char × List Char)
  | [] => none
  | c :: cs =>
    match attemptSpan cls (c :: cs) with
    | some (o, content, after) => some ([], o, content, after)
    | none =>
      match findSpan cls cs with
      | some (b, o, cont, a) => some (c :: b, o, cont, a)
      | none => none

/-- First match of `openLit ++ ([^<]+) ++ closeLit` anywhere in the text. -/
def findOCC (openLit closeLit : List Char) :
    List Char → Option (List Char × List Char × List Char)
  | [] => none
  | c :: cs =>
    match (if startsWithL openLit (c :: cs) then
        let rest := (c :: cs).drop openLit.length
        let content := rest.takeWhile (fun d => d ≠ '<')
        if content.isEmpty then none
        else if startsWithL closeLit (rest.drop content.length) then
          some (content, (rest.drop content.length).drop closeLit.length)
        else none
      else none) with
    | some (content, after) => some ([], content, after)
    | none =>
      match findOCC openLit closeLit cs with
      | some (b, cont, a) => some (c :: b, cont, a)
      | none => none

/-- Does an attribute run contain `class="…btn…"`?  (The quoted class value
of real pages does not cross a `>`, so scanning inside the `[^>]*` run is
equivalent to the source regex.) -/
def attrsHaveClassWith (needle : String) (attrs : List Char) : Bool :=
  match splitLit "class=\"".data attrs with
  | some (_, afterEq) =>
    match splitLit [quoteC] afterEq with
    | some (val, _) => containsL needle.data val
    | none => false
  | none => false

/-- Attempt the button pattern
`(<(?:button|a)[^>]*class="[^"]*btn[^"]*"[^>]*>)([^<]+)(</(?:button|a)>)`
at the head of `l`: returns open tag, content, matched close tag and
remainder.  `button` is tried before `a`, as in the regex alternation. -/
def attemptBtn (l : List Char) :
    Option (List Char × List Char × List Char × List Char) :=
  match (if startsWithL "<button".data l then some ("button", 7)
    else if startsWithL "<a".data l then some ("a", 2) else none) with
  | none => none
  | some (tg, tlen) =>
    let rest := l.drop tlen
    let attrs := rest.takeWhile (fun c => c ≠ '>')
    match rest.drop attrs.length with
    | '>' :: rest2 =>
      if attrsHaveClassWith "btn" attrs then
        let content := rest2.takeWhile (fun c => c ≠ '<')
        if content.isEmpty then none
        else
          let rest3 := rest2.drop content.length
          if startsWithL "</button>".data rest3 then
            some (("<" ++ tg).data ++ attrs ++ ['>'], content,
              "</button>".data, rest3.drop "</button>".length)
          else if startsWithL "</a>".data rest3 then
            some (("<" ++ tg).data ++ attrs ++ ['>'], content,
              "</a>".data, rest3.drop "</a>".length)
          else none
      else none
    | _ => none

/-- First button-pattern match anywhere in the text. -/
def findBtn : List Char →
    Option (List Char × List Char × List Char × List Char × List Char)
  | [] => none
  | c :: cs =>
    match attemptBtn (c :: cs) with
    | some (o, content, cl, after) => some ([], o, content, cl, after)
    | none =>
      match findBtn cs with
      | some (b, o, cont, cl, a) => some (c :: b, o, cont, cl, a)
      | none => none

/-- Attempt `(<a[^>]*class="[^"]*CLS[^"]*"[^>]*>)([^<]+)(</a>)`. -/
def attemptLinkCls (cls : String) (l : List Char) :
    Option (List Char × List Char × List Char) :=
  if startsWithL "<a".data l then
    let rest := l.drop 2
    let attrs := rest.takeWhile (fun c => c ≠ '>')
    match rest.drop attrs.length with
    | '>' :: rest2 =>
      if attrsHaveClassWith cls attrs then
        let content := rest2.takeWhile (fun c => c ≠ '<')
        if content.isEmpty then none
        else if startsWithL "</a>".data (rest2.drop content.length) then
          some ("<a".data ++ attrs ++ ['>'], content,
            (rest2.drop content.length).drop "</a>".length)
        else none
      else none
    | _ => none
  else none

/-- First link-class match anywhere in the text. -/
def findLinkCls (cls : String) :
    List Char → Option (List Char × List Char × List Char × List Char)
  | [] => none
  | c :: cs =>
    match attemptLinkCls cls (c :: cs) with
    | some (o, content, after) => some ([], o, content, after)
    | none =>
      match findLinkCls cls cs with
      | some (b, o, cont, a) => some (c :: b, o, cont, a)
      | none => none

/-- The span-classes sub-pass (extract.js lines 319-327): one first-match
replacement per class, in vocabulary order, against the current line. -/
def spanPass (pk : String) (acc : LState × CntMap × List Char) :
    LState × CntMap × List Char :=
  spanClasses.foldl
    (fun (acc : LState × CntMap × List Char) cls =>
      let (st, cnt, cur) := acc
      match findSpan cls cur with
      | some (b, o, content, a) =>
        if !shouldSkip content && !containsL "\x7b\x7b".data content then
          let (k, cnt') := nextKey cnt ("span_" ++ hyphensToUnderscores cls)
          (addString st pk k (String.mk (trimL content)), cnt',
           b ++ o ++ phText pk k ++ "</span>".data ++ a)
        else acc
      | none => acc)
    acc

/-- The div-classes sub-pass (extract.js lines 330-339). -/
def divPass (pk : String) (acc : LState × CntMap × List Char) :
    LState × CntMap × List Char :=
  divClasses.foldl
    (fun (acc : LState × CntMap × List Char) cls =>
      let (st, cnt, cur) := acc
      match findOCC ("<div class=\"" ++ cls ++ "\">").data "</div>".data cur with
      | some (b, content, a) =>
        if !shouldSkip content && !containsL "\x7b\x7b".data content then
          let (k, cnt') := nextKey cnt ("div_" ++ hyphensToUnderscores cls)
          (addString st pk k (String.mk (trimL content)), cnt',
           b ++ ("<div class=\"" ++ cls ++ "\">").data ++ phText pk k ++
             "</div>".data ++ a)
        else acc
      | none => acc)
    acc

/-- The `sharedBtns` map (extract.js lines 348-351). -/
def sharedBtns (text : String) : Option String :=
  if text = "Review" then some "btn_review"
  else if text = "Buy" then some "btn_buy"
  else if text = "Buy Now" then some "btn_buy_now"
  else none

/-- The button sub-pass (extract.js lines 342-361): one first match per
line; known call-to-action texts go to the shared scope, the rest to the
page scope under the `btn` counter. -/
def btnPass (pk : String) (acc : LState × CntMap × List Char) :
    LState × CntMap × List Char :=
  let (st, cnt, cur) := acc
  match findBtn cur with
  | some (b, o, content, cl, a) =>
    if !shouldSkip content && !containsL "\x7b\x7b".data content then
      let text := String.mk (trimL content)
      match sharedBtns text with
      | some shKey =>
        (addShared st shKey text, cnt,
         b ++ o ++ ("\x7b\x7bt.shared." ++ shKey ++ "\x7d\x7d").data ++ cl ++ a)
      | none =>
        let (k, cnt') := nextKey cnt "btn"
        (addString st pk k text, cnt', b ++ o ++ phText pk k ++ cl ++ a)
    else acc
  | none => acc

/-- The link-classes sub-pass (extract.js lines 364-375). -/
def linkPass (pk : String) (acc : LState × CntMap × List Char) :
    LState × CntMap × List Char :=
  linkClasses.foldl
    (fun (acc : LState × CntMap × List Char) cls =>
      let (st, cnt, cur) := acc
      match findLinkCls cls cur with
      | some (b, o, content, a) =>
        if !shouldSkip content && !containsL "\x7b\x7b".data content then
          let (k, cnt') := nextKey cnt ("link_" ++ hyphensToUnderscores cls)
          (addString st pk k (String.mk (trimL content)), cnt',
           b ++ o ++ phText pk k ++ "</a>".data ++ a)
        else acc
      | none => acc)
    acc

/-- The in-scan flags of `extractBodyText`. -/
structure BodyFlags where
  inScript : Bool
  inStyle : Bool
  inFooter : Bool
deriving DecidableEq, Repr

/-- One iteration of the `extractBodyText` line loop (extract.js lines
244-376): script/style/footer tracking, the already-templated guard, then
the matcher cascade. -/
def bodyLineStep (pk : String) (fl : BodyFlags) (cnt : CntMap) (st : LState)
    (line : List Char) : BodyFlags × CntMap × LState × List Char :=
  let inScript := if containsCIL "<script".data line then true else fl.inScript
  if containsCIL "</script>".data line then
    (⟨false, fl.inStyle, fl.inFooter⟩, cnt, st, line)
  else
    let inStyle := if containsCIL "<style".data line then true else fl.inStyle
    if containsCIL "</style>".data line then
      (⟨inScript, false, fl.inFooter⟩, cnt, st, line)
    else
      let inFooter :=
        if containsL "class=\"footer\"".data line then true else fl.inFooter
      let fl' : BodyFlags := ⟨inScript, inStyle, inFooter⟩
      if inScript || inStyle || inFooter then (fl', cnt, st, line)
      else if containsL "\x7b\x7bt.".data line then (fl', cnt, st, line)
      else
        let (st, cnt, cur) := headingPass pk line st cnt
        let (st, cnt, cur) :=
          let (st', cnt', cur') := tagReplaceStep pk "p" "p" cur st cnt cur
          (st', cnt', cur')
        let (st, cur) := thLoop (cur.length + 1) st cur 0
        let (st, cur) := dlLoop (cur.length + 1) st cur 0
        let (st, cnt, cur) := spanPass pk (st, cnt, cur)
        let (st, cnt, cur) := divPass pk (st, cnt, cur)
        let (st, cnt, cur) := btnPass pk (st, cnt, cur)
        let (st, cnt, cur) := linkPass pk (st, cnt, cur)
        (fl', cnt, st, cur)

/-- `html.split('\n')`. -/
def splitLinesL : List Char → List (List Char)
  | [] => [[]]
  | c :: cs =>
    match splitLinesL cs, decide (c = '\n') with
    | r, true => [] :: r
    | [], false => [[c]]
    | h :: t, false => (c :: h) :: t

/-- `lines.join('\n')`. -/
def joinLinesL (ls : List (List Char)) : List Char :=
  match ls with
  | [] => []
  | [l] => l
  | l :: rest => l ++ '\n' :: joinLinesL rest

/-- `extractBodyText` (extract.js lines 229-379). -/
def extractBodyText (st : LState) (pk : String) (html : List Char) :
    LState × List Char :=
  let step := fun (acc : BodyFlags × CntMap × LState × List (List Char)) line =>
    let (fl, cnt, st, out) := acc
    let (fl', cnt', st', line') := bodyLineStep pk fl cnt st line
    (fl', cnt', st', out ++ [line'])
  let (_, _, st', out) :=
    (splitLinesL html).foldl step (⟨false, false, false⟩, [], st, [])
  (st', joinLinesL out)

/-! ### Phase 6: footer templating -/

/-- The footer column headings (extract.js lines 408-415), in order. -/
def h4Map : List (String × String) :=
  [("Model Y Mattresses", "footer_col_model_y"),
   ("Model 3 Mattresses", "footer_col_model_3"),
   ("Discount Codes", "footer_col_discounts"),
   ("Resources", "footer_col_resources"),
   ("Compare", "footer_col_compare"),
   ("Comparisons", "footer_col_comparisons")]

/-- The footer link vocabulary (extract.js lines 425-447), in order. -/
def footerLinks : List (String × String) :=
  [("Snuuzu Model Y Review", "fl_snuuzu_y"),
   ("Havnby Autolevel Review", "fl_havnby_autolevel"),
   ("TESMAT Luxe Model Y", "fl_tesmat_luxe_y"),
   ("Havnby Solo Review", "fl_havnby_solo"),
   ("TESMAT Solo Model Y", "fl_tesmat_solo_y"),
   ("NovaPads Air-Foam Pro Review", "fl_novapads"),
   ("Snuuzu Model 3 Review", "fl_snuuzu_3"),
   ("TESMAT Luxe Model 3", "fl_tesmat_luxe_3"),
   ("TESMAT Solo Model 3", "fl_tesmat_solo_3"),
   ("Havnby Foam Y/3 Review", "fl_havnby_foam"),
   ("All Discount Codes", "fl_all_discounts"),
   ("Snuuzu Discount Code", "fl_snuuzu_discount"),
   ("Havnby Discount Code", "fl_havnby_discount"),
   ("NovaPads Discount Code", "fl_novapads_discount"),
   ("Mattress Comparison", "fl_comparison"),
   ("Exclusive Codes", "fl_exclusive_codes"),
   ("Partner Brands", "fl_partner_brands"),
   ("About Us", "fl_about"),
   ("All Comparisons", "fl_all_comparisons"),
   ("Methodology", "fl_methodology"),
   ("Affiliate Disclosure", "fl_disclosure")]

/-- The shared placeholder `\x7b\x7bt.shared.KEY\x7d\x7d`. -/
def phShared (key : String) : List Char :=
  ("\x7b\x7bt.shared." ++ key ++ "\x7d\x7d").data

/-- Attempt the copyright pattern `(&copy; \d+ Teslamattress\. )([^<]+)(<a)`
at the head of `l`: returns the matched first group, the rights text and the
remainder after `<a`. -/
def attemptCopyright (l : List Char) :
    Option (List Char × List Char × List Char) :=
  if startsWithL "&copy; ".data l then
    let rest := l.drop 7
    let digits := rest.takeWhile Char.isDigit
    if digits.isEmpty then none
    else if startsWithL " Teslamattress. ".data (rest.drop digits.length) then
      let rest2 := (rest.drop digits.length).drop " Teslamattress. ".length
      let rights := rest2.takeWhile (fun c => c ≠ '<')
      if rights.isEmpty then none
      else if startsWithL "<a".data (rest2.drop rights.length) then
        some ("&copy; ".data ++ digits ++ " Teslamattress. ".data, rights,
          (rest2.drop rights.length).drop 2)
      else none
    else none
  else none

/-- First copyright-pattern match anywhere in the text. -/
def findCopyright : List Char →
    Option (List Char × List Char × List Char × List Char)
  | [] => none
  | c :: cs =>
    match attemptCopyright (c :: cs) with
    | some (g1, rights, after) => some ([], g1, rights, after)
    | none =>
      match findCopyright cs with
      | some (b, g1, r, a) => some (c :: b, g1, r, a)
      | none => none

/-- The rewriting applied to the footer block content
(extract.js lines 388-475). -/
def footerContentStep (st : LState) (content : List Char) :
    LState × List Char :=
  -- footer-tagline (first match)
  let (st, content) :=
    match findOCC "<p class=\"footer-tagline\">".data "</p>".data content with
    | some (b, text, a) =>
      (addShared st "footer_tagline" (String.mk (trimL text)),
       b ++ "<p class=\"footer-tagline\">".data ++ phShared "footer_tagline" ++
         "</p>".data ++ a)
    | none => (st, content)
  -- footer-logo: the callback returns the match unchanged (brand name kept)
  -- h4 column headings: keys always added, first literal occurrence replaced
  let (st, content) := h4Map.foldl
    (fun (acc : LState × List Char) p =>
      let (st, content) := acc
      (addShared st p.2 p.1,
       replaceFirstL content ("<h4>" ++ p.1 ++ "</h4>").data
         ("<h4>".data ++ phShared p.2 ++ "</h4>".data)))
    (st, content)
  -- footer link texts: keys always added, all occurrences replaced
  let (st, content) := footerLinks.foldl
    (fun (acc : LState × List Char) p =>
      let (st, content) := acc
      (addShared st p.2 p.1,
       replaceAllL content (">" ++ p.1 ++ "</a>").data
         (">".data ++ phShared p.2 ++ "</a>".data)))
    (st, content)
  -- disclaimer (first match)
  let (st, content) :=
    match findOCC "<p class=\"disclaimer\">".data "</p>".data content with
    | some (b, text, a) =>
      (addShared st "footer_disclaimer" (String.mk (trimL text)),
       b ++ "<p class=\"disclaimer\">".data ++ phShared "footer_disclaimer" ++
         "</p>".data ++ a)
    | none => (st, content)
  -- copyright rights fragment (first match)
  let (st, content) :=
    match findCopyright content with
    | some (b, g1, rights, a) =>
      (addShared st "footer_rights" (String.mk (trimL rights)),
       b ++ g1 ++ phShared "footer_rights" ++ " <a".data ++ a)
    | none => (st, content)
  (st, content)

/-- `templateFooter` (extract.js lines 384-481): only the first footer block
is rewritten; all its strings go to the shared scope. -/
def templateFooter (st : LState) (html : List Char) : LState × List Char :=
  match splitLit "<footer class=\"footer\">".data html with
  | none => (st, html)
  | some (before, rest) =>
    match splitLit "</footer>".data rest with
    | none => (st, html)
    | some (content, after) =>
      let (st, content') := footerContentStep st content
      (st, before ++ "<footer class=\"footer\">".data ++ content' ++
        "</footer>".data ++ after)

/-! ### Phase 7: region popup templating -/

/-- Scan successive `<button` positions after the popup container for the
heading pattern `<button[^>]*>[^<]*</button>\s*\n\s*<h3>([^<]+)</h3>`
(extract.js lines 488-494).  Returns the matched text from the first
`<button` through `<h3>`, the title and the remainder after `</h3>`. -/
def popupBtnScan : Nat → List Char →
    Option (List Char × List Char × List Char)
  | 0, _ => none
  | fuel + 1, l =>
    match splitLit "<button".data l with
    | none => none
    | some (pre, rest) =>
      match (
        let attrs := rest.takeWhile (fun c => c ≠ '>')
        match rest.drop attrs.length with
        | '>' :: rest2 =>
          let btnText := rest2.takeWhile (fun c => c ≠ '<')
          let rest3 := rest2.drop btnText.length
          if startsWithL "</button>".data rest3 then
            let rest4 := rest3.drop "</button>".length
            let gap := rest4.takeWhile isWs
            if containsL ['\n'] gap &&
                startsWithL "<h3>".data (rest4.drop gap.length) then
              let rest5 := (rest4.drop gap.length).drop 4
              let title := rest5.takeWhile (fun c => c ≠ '<')
              if !title.isEmpty &&
                  startsWithL "</h3>".data (rest5.drop title.length) then
                some ("<button".data ++ attrs ++ ['>'] ++ btnText ++
                    "</button>".data ++ gap ++ "<h3>".data, title,
                  (rest5.drop title.length).drop "</h3>".length)
              else none
            else none
          else none
        | _ => none) with
      | some (mid, title, after) => some (pre ++ mid, title, after)
      | none =>
        match popupBtnScan fuel rest with
        | some (mid, title, after) =>
          some (pre ++ "<button".data ++ mid, title, after)
        | none => none

/-- `templateRegionPopup` (extract.js lines 486-531). -/
def templateRegionPopup (st : LState) (html : List Char) : LState × List Char :=
  -- popup heading: anchored at the first popup container
  let (st, html) :=
    match splitLit "<div class=\"region-popup-content\">".data html with
    | none => (st, html)
    | some (before, rest) =>
      match popupBtnScan (rest.length + 1) rest with
      | some (mid, title, after) =>
        (addShared st "region_title" (String.mk (trimL title)),
         before ++ "<div class=\"region-popup-content\">".data ++ mid ++
           phShared "region_title" ++ "</h3>".data ++ after)
      | none => (st, html)
  -- popup subtitle
  let (st, html) :=
    match findOCC "<p class=\"region-popup-subtitle\">".data "</p>".data html with
    | some (b, text, a) =>
      (addShared st "region_subtitle" (String.mk (trimL text)),
       b ++ "<p class=\"region-popup-subtitle\">".data ++
         phShared "region_subtitle" ++ "</p>".data ++ a)
    | none => (st, html)
  -- popup discount copy (lazy, may span tags)
  let (st, html) :=
    match splitLit "<p class=\"region-discount\">".data html with
    | none => (st, html)
    | some (before, rest) =>
      match splitLit "</p>".data rest with
      | none => (st, html)
      | some (text, after) =>
        (addShared st "region_discount_text" (String.mk (trimL text)),
         before ++ "<p class=\"region-discount\">".data ++
           phShared "region_discount_text" ++ "</p>".data ++ after)
  -- region display names (global; the key is added once per matched name)
  let (st, html) :=
    let pat := "<span class=\"region-name\">Europe</span>".data
    if countLit pat html > 0 then
      (addShared st "region_europe" "Europe",
       replaceAllL html pat
         ("<span class=\"region-name\">".data ++ phShared "region_europe" ++
           "</span>".data))
    else (st, html)
  let (st, html) :=
    let pat := "<span class=\"region-name\">United States</span>".data
    if countLit pat html > 0 then
      (addShared st "region_us" "United States",
       replaceAllL html pat
         ("<span class=\"region-name\">".data ++ phShared "region_us" ++
           "</span>".data))
    else (st, html)
  (st, html)

/-! ### Phase 8: internal link prefixing -/

/-- The static-asset extensions skipped by the link rewriter
(extract.js line 540). -/
def assetExts : List String :=
  ["css", "js", "svg", "png", "jpg", "jpeg", "webp", "json", "ico", "xml", "txt"]

/-- Does the literal `sfx` end the list? -/
def endsWithL (sfx l : List Char) : Bool :=
  startsWithL sfx.reverse l.reverse

/-- The asset test `\.(css|…|txt)(\?|$)`. -/
def isAssetPath (p : List Char) : Bool :=
  assetExts.any fun e =>
    endsWithL ("." ++ e).data p || containsL ("." ++ e ++ "?").data p

/-- Attempt `href="(\/[^"]*?)"` at the head of `l`: the captured path
(starting with `/`) and the total match length. -/
def attemptHref (l : List Char) : Option (List Char × Nat) :=
  if startsWithL "href=\"/".data l then
    let cap := (l.drop 6).takeWhile (fun c => c ≠ quoteC)
    match (l.drop 6).drop cap.length with
    | c :: _ =>
      if c = quoteC then some (cap, 6 + cap.length + 1) else none
    | [] => none
  else none

/-- The replacement decision of `templateInternalLinks`
(extract.js lines 538-548). -/
def hrefRewrite (p : List Char) : List Char :=
  let orig := "href=\"".data ++ p ++ [quoteC]
  if isAssetPath p then orig
  else if startsWithL "/images/".data p || startsWithL "/_vercel/".data p then orig
  else if startsWithL "/favicon".data p || startsWithL "/apple-touch".data p then orig
  else if containsL "\x7b\x7b".data p then orig
  else
    let cleaned := match p with
      | '/' :: r => r
      | other => other
    "href=\"/\x7b\x7blocalePath\x7d\x7d".data ++ cleaned ++ [quoteC]

/-- The global scan of `templateInternalLinks`. -/
def ilGo : Nat → List Char → List Char
  | _ + 1, [] => []
  | k + 1, _ :: cs => ilGo k cs
  | 0, [] => []
  | 0, c :: cs =>
    match attemptHref (c :: cs) with
    | some (p, len) => hrefRewrite p ++ ilGo (len - 1) cs
    | none => c :: ilGo 0 cs

/-- `templateInternalLinks`. -/
def templateInternalLinks (html : List Char) : List Char := ilGo 0 html

/-! ### processPage -/

/-- The pure page transformation of `processPage` (extract.js lines 556-602):
reset the page section, then either the minimal redirect templating for the
`discount_tesery` page or the eight-phase pipeline.  `parse` and
`stringify8` model the JSON runtime primitives used by the structured-data
pass. -/
def processPageHtml (parse : String → Option Json) (stringify8 : Json → String)
    (st : LState) (pk : String) (html : List Char) : LState × List Char :=
  let st := setSection st pk []
  if pk = "discount_tesery" then
    let html := replaceFirstL html "<html lang=\"en\">".data
      "<html lang=\"\x7b\x7bhtmlLang\x7d\x7d\">".data
    let html :=
      match findLRS "<link rel=\"canonical\" href=\"".data "\">".data
          (fun c => c ≠ quoteC) html with
      | some (b, _, a) =>
        b ++ "<link rel=\"canonical\" href=\"\x7b\x7bcanonicalUrl\x7d\x7d\">".data ++ a
      | none => html
    let html := replaceFirstL html
      "<meta http-equiv=\"refresh\" content=\"0;url=/discounts/novapads\">".data
      ("<meta http-equiv=\"refresh\" content=\"0;url=/" ++
        "\x7b\x7blocalePath\x7d\x7ddiscounts/novapads\">").data
    let html := replaceFirstL html "href=\"/discounts/novapads\"".data
      "href=\"/\x7b\x7blocalePath\x7d\x7ddiscounts/novapads\"".data
    (st, html)
  else
    let (st, html) := extractMeta st pk html
    let html := templateStructural html
    let (st, html) := extractJsonLd parse stringify8 st pk html
    let (st, html) := templateNav st html
    let (st, html) := extractBodyText st pk html
    let (st, html) := templateFooter st html
    let (st, html) := templateRegionPopup st html
    let html := templateInternalLinks html
    (st, html)

end Extract

namespace Translate

/-- The staleness check of translate.js line 155: an existing locale section
is "fully translated" exactly when its key count equals the source
section's key count. -/
def sectionSkipped (enSec : List (String × String))
    (locSec : Option (List (String × String))) : Bool :=
  match locSec with
  | some m => decide (m.length = enSec.length)
  | none => false

/-- One iteration of the per-section loop of translate.js `main`
(lines 148-178), for a section present in the source dictionary: a skipped
section is kept; otherwise the external translator's `result` replaces the
section wholesale (`localeData[section] = result`), and a failed translation
(`result = none`) leaves the previous state untouched.  Returns the new
locale section and whether the staleness check skipped it. -/
def sectionStep (enSec : List (String × String))
    (locSec : Option (List (String × String)))
    (result : Option (List (String × String))) :
    Option (List (String × String)) × Bool :=
  if sectionSkipped enSec locSec then (locSec, true)
  else
    match result with
    | some r => (some r, false)
    | none => (locSec, false)

end Translate

namespace Verify

open SiteChars SiteStr Build

/-- The default locale set of verify.js (line 18). -/
def LOCALES : List String := ["en", "de", "fr", "no", "da", "sv"]

/-- `LOCALE_PATHS` (verify.js line 19). -/
def LOCALE_PATHS (loc : String) : String :=
  if loc = "en" then "" else if loc = "de" then "de/"
  else if loc = "fr" then "fr/" else if loc = "no" then "no/"
  else if loc = "da" then "da/" else if loc = "sv" then "sv/" else ""

/-- `HTML_LANGS` (verify.js line 20). -/
def HTML_LANGS (loc : String) : String :=
  if loc = "en" then "en" else if loc = "de" then "de"
  else if loc = "fr" then "fr" else if loc = "no" then "nb"
  else if loc = "da" then "da" else if loc = "sv" then "sv" else ""

/-- The rendered output tree as verify.js reads it from disk: contents of
per-locale page files, the per-locale `disclosure.html`, per-locale
`index.html` existence, the sitemap, and resolvability of link-target
paths relative to the output root. -/
structure Dist where
  pageFile : String → String → Option (List Char)
  disclosure : String → Option (List Char)
  indexExists : String → Bool
  sitemap : Option (List Char)
  linkTargetExists : String → Bool

/-- Check 1 (`checkFileCount`, verify.js lines 32-52): a missing rendered
file is an error. -/
def checkFileCount (locales : List String) (pages : List Page) (d : Dist) :
    Nat × Nat :=
  locales.foldl
    (fun acc loc =>
      pages.foldl
        (fun (acc : Nat × Nat) page =>
          match d.pageFile loc page.output with
          | some _ => acc
          | none => (acc.1 + 1, acc.2))
        acc)
    (0, 0)

/-- Attempt the unresolved-placeholder pattern
`\x7b\x7bt\.[^\x7d]+\x7d\x7d` at the head of `l`; returns the match
length. -/
def attemptUnresolvedPH (l : List Char) : Option Nat :=
  if startsWithL "\x7b\x7bt.".data l then
    let cap := (l.drop 4).takeWhile (fun c => c ≠ rbC)
    if cap.isEmpty then none
    else
      match (l.drop 4).drop cap.length with
      | c1 :: c2 :: _ =>
        if c1 = rbC && c2 = rbC then some (4 + cap.length + 2) else none
      | _ => none
  else none

/-- Count of unresolved translation placeholders in a rendered file. -/
def countUnresolvedGo : Nat → List Char → Nat
  | _ + 1, [] => 0
  | k + 1, _ :: cs => countUnresolvedGo k cs
  | 0, [] => 0
  | 0, c :: cs =>
    match attemptUnresolvedPH (c :: cs) with
    | some len => 1 + countUnresolvedGo (len - 1) cs
    | none => countUnresolvedGo 0 cs

/-- Count of unresolved translation placeholders. -/
def countUnresolved (l : List Char) : Nat := countUnresolvedGo 0 l

/-- Check 2 (`checkPlaceholders`, verify.js lines 57-78): each file with
unresolved placeholders records one error. -/
def checkPlaceholders (locales : List String) (pages : List Page) (d : Dist) :
    Nat × Nat :=
  locales.foldl
    (fun acc loc =>
      pages.foldl
        (fun (acc : Nat × Nat) page =>
          match d.pageFile loc page.output with
          | none => acc
          | some html =>
            if countUnresolved html > 0 then (acc.1 + 1, acc.2) else acc)
        acc)
    (0, 0)

/-- Check 3 (`checkUndefined`, verify.js lines 83-105): each file containing
a literal `undefined` marker records one error. -/
def checkUndefined (locales : List String) (pages : List Page) (d : Dist) :
    Nat × Nat :=
  locales.foldl
    (fun acc loc =>
      pages.foldl
        (fun (acc : Nat × Nat) page =>
          match d.pageFile loc page.output with
          | none => acc
          | some html =>
            let n := countLit "content=\"undefined\"".data html +
              countLit ">undefined<".data html
            if n > 0 then (acc.1 + 1, acc.2) else acc)
        acc)
    (0, 0)

/-- First match of `<html lang="([^"]+)">`. -/
def findHtmlLang : List Char → Option (List Char)
  | [] => none
  | c :: cs =>
    match (if startsWithL "<html lang=\"".data (c :: cs) then
        let rest := (c :: cs).drop "<html lang=\"".length
        let cap := rest.takeWhile (fun d => d ≠ quoteC)
        if cap.isEmpty then none
        else if startsWithL "\">".data (rest.drop cap.length) then some cap
        else none
      else none) with
    | some cap => some cap
    | none => findHtmlLang cs

/-- Check 4 (`checkHtmlLang`, verify.js lines 110-135): a missing or
mismatching `lang` attribute records one error. -/
def checkHtmlLang (locales : List String) (pages : List Page) (d : Dist) :
    Nat × Nat :=
  locales.foldl
    (fun acc loc =>
      pages.foldl
        (fun (acc : Nat × Nat) page =>
          match d.pageFile loc page.output with
          | none => acc
          | some html =>
            match findHtmlLang html with
            | none => (acc.1 + 1, acc.2)
            | some v =>
              if String.mk v = HTML_LANGS loc then acc else (acc.1 + 1, acc.2))
        acc)
    (0, 0)

/-- Attempt `hreflang="([^"]+)"` at the head of `l`: capture and match
length. -/
def attemptHreflangAttr (l : List Char) : Option (List Char × Nat) :=
  if startsWithL "hreflang=\"".data l then
    let cap := (l.drop 10).takeWhile (fun c => c ≠ quoteC)
    if cap.isEmpty then none
    else
      match (l.drop 10).drop cap.length with
      | c :: _ =>
        if c = quoteC then some (cap, 10 + cap.length + 1) else none
      | [] => none
  else none

/-- All `hreflang` attribute values of a file, in order. -/
def hreflangValuesGo : Nat → List Char → List (List Char)
  | _ + 1, [] => []
  | k + 1, _ :: cs => hreflangValuesGo k cs
  | 0, [] => []
  | 0, c :: cs =>
    match attemptHreflangAttr (c :: cs) with
    | some (cap, len) => cap :: hreflangValuesGo (len - 1) cs
    | none => hreflangValuesGo 0 cs

/-- All `hreflang` attribute values of a file. -/
def hreflangValues (l : List Char) : List (List Char) := hreflangValuesGo 0 l

/-- Check 5 (`checkHreflang`, verify.js lines 140-173): each non-redirect
file must carry at least 7 hreflang attributes including `x-default`;
failures record one error each. -/
def checkHreflang (locales : List String) (pages : List Page) (d : Dist) :
    Nat × Nat :=
  locales.foldl
    (fun acc loc =>
      pages.foldl
        (fun (acc : Nat × Nat) page =>
          if page.pageKey = "discount_tesery" then acc
          else
            match d.pageFile loc page.output with
            | none => acc
            | some html =>
              let vals := hreflangValues html
              if vals.length < 7 then (acc.1 + 1, acc.2)
              else if !vals.contains "x-default".data then (acc.1 + 1, acc.2)
              else acc)
        acc)
    (0, 0)

/-- Check 6 (`checkSitemap`, verify.js lines 178-207): a missing sitemap or
missing `xhtml:link` entries are errors; a URL-count mismatch is only a
warning. -/
def checkSitemap (locales : List String) (pages : List Page) (d : Dist) :
    Nat × Nat :=
  match d.sitemap with
  | none => (1, 0)
  | some sm =>
    let urlCount := countLit "<url>".data sm
    let localeCount := (locales.filter d.indexExists).length
    let expectedUrls := pages.length * localeCount
    let acc : Nat × Nat := if urlCount = expectedUrls then (0, 0) else (0, 1)
    let xhtmlLinks := countLit "xhtml:link".data sm
    if xhtmlLinks > 0 then acc else (acc.1 + 1, acc.2)

/-- The link values `href="(\/[^"]*)"` of a file. -/
def hrefValuesGo : Nat → List Char → List (List Char)
  | _ + 1, [] => []
  | k + 1, _ :: cs => hrefValuesGo k cs
  | 0, [] => []
  | 0, c :: cs =>
    match Extract.attemptHref (c :: cs) with
    | some (p, len) => p :: hrefValuesGo (len - 1) cs
    | none => hrefValuesGo 0 cs

/-- The root-relative link targets of a file. -/
def hrefValues (l : List Char) : List (List Char) := hrefValuesGo 0 l

/-- The asset-extension test of check 7 (verify.js line 232): anchored at the
end of the path, with a different extension list than the extractor's. -/
def isAssetLink (p : List Char) : Bool :=
  ["css", "js", "svg", "png", "jpg", "webp", "json", "xml", "txt", "ico"].any
    fun e => Extract.endsWithL ("." ++ e).data p

/-- The candidate output paths tried for one link target
(verify.js lines 236-246), relative to the output root. -/
def linkCandidates (p : List Char) : List (List Char) :=
  let checkPath :=
    if Extract.endsWithL ['/'] p then p.dropLast ++ "/index.html".data else p
  let checkPath :=
    if Extract.endsWithL ".html".data checkPath then checkPath
    else checkPath ++ ".html".data
  let checkPath := match checkPath with
    | '/' :: r => r
    | other => other
  let altPath := replaceFirstL checkPath ".html".data "/index.html".data
  let cleanPath := (match p with
    | '/' :: r => r
    | other => other) ++ "/index.html".data
  [checkPath, altPath, cleanPath]

/-- Check 7 (`checkInternalLinks`, verify.js lines 212-262): broken links
are counted, the first ten are warned individually, and a final summary
line warns once more; nothing is recorded as an error. -/
def checkInternalLinks (locales : List String) (pages : List Page) (d : Dist) :
    Nat × Nat :=
  let step := fun (acc : Nat × Nat × Nat) (p : List Char) =>
    let (checked, broken, warns) := acc
    if containsL ['#'] p then acc
    else if isAssetLink p then acc
    else if startsWithL "/_vercel".data p then acc
    else
      let ok := (linkCandidates p).any fun cand =>
        d.linkTargetExists (String.mk cand)
      if ok then (checked + 1, broken, warns)
      else
        let broken := broken + 1
        (checked + 1, broken, if broken ≤ 10 then warns + 1 else warns)
  let (_, broken, warns) :=
    locales.foldl
      (fun acc loc =>
        pages.foldl
          (fun (acc : Nat × Nat × Nat) page =>
            match d.pageFile loc page.output with
            | none => acc
            | some html => (hrefValues html).foldl step acc)
          acc)
      (0, 0, 0)
  if broken = 0 then (0, warns) else (0, warns + 1)

/-- Check 8 (`checkNoindex`, verify.js lines 267-282): a disclosure page
without a no-index directive records a warning, never an error. -/
def checkNoindex (locales : List String) (d : Dist) : Nat × Nat :=
  locales.foldl
    (fun (acc : Nat × Nat) loc =>
      match d.disclosure loc with
      | none => acc
      | some html =>
        if containsL "noindex".data html then acc else (acc.1, acc.2 + 1))
    (0, 0)

/-- The full run (verify.js lines 287-308): all eight checks execute, errors
and warnings are summed, and the process exits non-zero exactly when at
least one error was recorded. -/
def runChecks (locales : List String) (pages : List Page) (d : Dist) :
    Nat × Nat :=
  let r1 := checkFileCount locales pages d
  let r2 := checkPlaceholders locales pages d
  let r3 := checkUndefined locales pages d
  let r4 := checkHtmlLang locales pages d
  let r5 := checkHreflang locales pages d
  let r6 := checkSitemap locales pages d
  let r7 := checkInternalLinks locales pages d
  let r8 := checkNoindex locales d
  (r1.1 + r2.1 + r3.1 + r4.1 + r5.1 + r6.1 + r7.1 + r8.1,
   r1.2 + r2.2 + r3.2 + r4.2 + r5.2 + r6.2 + r7.2 + r8.2)

/-- `process.exit(1)` happens exactly when `errors > 0`. -/
def exitCode (locales : List String) (pages : List Page) (d : Dist) : Nat :=
  if (runChecks locales pages d).1 > 0 then 1 else 0

end Verify

/-! ## Claim theorems -/

open SiteChars SiteStr Build Extract

/-- A small raw page exercising the meta, structural and body passes.  It
contains no JSON-LD block, so the JSON runtime parameters of the pipeline
are never consulted on it. -/
def c1RawPage : String :=
  "<html lang=\"en\">\n<head>\n<title>Tesla Mattress</title>\n" ++
  "<link rel=\"canonical\" href=\"https://teslamattress.com/\">\n" ++
  "</head>\n<body>\n<p>Read our honest reviews here.</p>\n</body>\n</html>"

/-- An arbitrary concrete stand-in for the JSON runtime primitives; on
`c1RawPage` the structured-data pass finds no block, so these are never
applied. -/
def c1NoParse : String → Option Json := fun _ => none

/-- Stand-in for `JSON.stringify(·, null, 8)`, unused on `c1RawPage`. -/
def c1NoStringify : Json → String := fun _ => ""

/-- First extraction run on the raw page. -/
def c1Run1 : LState × List Char :=
  processPageHtml c1NoParse c1NoStringify initState "home" c1RawPage.data

/-- Second extraction run, applied to the template the first run produced. -/
def c1Run2 : LState × List Char :=
  processPageHtml c1NoParse c1NoStringify c1Run1.1 "home" c1Run1.2

set_option maxRecDepth 1000000 in
set_option maxHeartbeats 2000000 in
/-- C1 (counterexample): extraction is *not* idempotent.  Running the
pipeline a second time on the template it produced changes the template —
the structural pass re-matches the already-templated canonical link and
inserts a second `\x7b\x7bhreflangTags\x7d\x7d` line — and overwrites the
`meta_title` dictionary value with the placeholder text itself, so the claim
fails on all three counts it asserts. -/
theorem c1_counterexample :
    c1Run2.2 ≠ c1Run1.2 ∧
    getSection c1Run1.1 "home" ≠ getSection c1Run2.1 "home" ∧
    (getSection c1Run1.1 "home").map (fun m => getKey m "meta_title") =
      some (some "Tesla Mattress") ∧
    (getSection c1Run2.1 "home").map (fun m => getKey m "meta_title") =
      some (some "\x7b\x7bt.home.meta_title\x7d\x7d") := by
  refine ⟨by decide, by decide, by decide, by decide⟩

/-- C1 (amended): the extraction pipeline is not idempotent — re-running the
structural pass duplicates the hreflang-tags insertion (see the
counterexample) — but the body-text pass does satisfy the skip property the
spec appeals to: a line that already contains a translation placeholder is
left completely unchanged by the line step and contributes nothing to the
dictionary or the key counters. -/
theorem c1_amended_body_pass_skips_templated_lines
    (pk : String) (fl : BodyFlags) (cnt : CntMap) (st : LState)
    (line : List Char) (h : containsL "\x7b\x7bt.".data line = true) :
    (bodyLineStep pk fl cnt st line).2.1 = cnt ∧
    (bodyLineStep pk fl cnt st line).2.2.1 = st ∧
    (bodyLineStep pk fl cnt st line).2.2.2 = line := by
  unfold bodyLineStep
  repeat' split <;> simp_all

/-- Witness for the amended C1 theorem at a concrete already-templated
line. -/
theorem c1_amended_witness :
    containsL "\x7b\x7bt.".data "<p>\x7b\x7bt.home.p\x7d\x7d</p>".data = true ∧
    (bodyLineStep "home" ⟨false, false, false⟩ [] initState
      "<p>\x7b\x7bt.home.p\x7d\x7d</p>".data).2.2.2 =
      "<p>\x7b\x7bt.home.p\x7d\x7d</p>".data :=
  ⟨by decide,
   (c1_amended_body_pass_skips_templated_lines "home" ⟨false, false, false⟩ []
     initState "<p>\x7b\x7bt.home.p\x7d\x7d</p>".data (by decide)).2.2⟩

/-- The `de` dictionary of the spec's scenario: the `home` scope is entirely
absent. -/
def c2DeDict : LocaleData := [("shared", [("nav_reviews", "Bewertungen")])]

/-- C2: a translation placeholder whose section/key pair is missing from the
locale dictionary is re-emitted verbatim together with a diagnostic, and is
in particular never replaced by empty text; with an empty dictionary (every
scope missing) rendering is the identity on the page text; and the spec's
scenario — a `de` dictionary lacking the whole `home` scope — leaves both
`home` placeholders literally in the output with exactly two diagnostics.
Totality of `replaceTranslations` (it never throws) is by construction. -/
theorem c2_missing_key_leaves_placeholder_verbatim
    (d : LocaleData) (sec key : String) (m : List Char)
    (h : lookup2 d sec key = none) :
    rtEmit d sec key m = (m, [(sec, key)]) ∧
    (∀ html : String, (replaceTranslations html []).1 = html) ∧
    replaceTranslations
      ("<h1>\x7b\x7bt.home.h1\x7d\x7d</h1>\n<p>\x7b\x7bt.home.p_1\x7d\x7d</p>")
      c2DeDict =
      ("<h1>\x7b\x7bt.home.h1\x7d\x7d</h1>\n<p>\x7b\x7bt.home.p_1\x7d\x7d</p>",
       [("home", "h1"), ("home", "p_1")]) := by
  refine ⟨?_, ?_, by decide⟩
  · unfold rtEmit
    rw [h]
  · intro html
    cases html with
    | mk l =>
      show String.mk (rtGo [] 0 l).1 = String.mk l
      rw [rtGo_empty_id l.length l (Nat.le_refl _)]

/-- Witness for C2 at a concrete missing pair. -/
theorem c2_witness :
    lookup2 c2DeDict "home" "h1" = none ∧
    rtEmit c2DeDict "home" "h1" "\x7b\x7bt.home.h1\x7d\x7d".data =
      ("\x7b\x7bt.home.h1\x7d\x7d".data, [("home", "h1")]) :=
  ⟨by decide,
   (c2_missing_key_leaves_placeholder_verbatim c2DeDict "home" "h1"
     "\x7b\x7bt.home.h1\x7d\x7d".data (by decide)).1⟩

/-- C3: for every page path the hreflang block contains one alternate link
per configured locale — the six configured locales are pairwise distinct, as
are their hreflang attributes — followed by exactly one `x-default` link
whose URL is the unprefixed source-locale path: 7 links in total.  The
generator takes no rendering-locale argument at all, so the block is
identical for every rendering locale. -/
theorem c3_hreflang_cardinality (pagePath : String) :
    (generateHreflangTagsList pagePath).length = 7 ∧
    ALL_LOCALES.length = 6 ∧ ALL_LOCALES.Nodup ∧
    (ALL_LOCALES.map fun loc => (cfgOf loc).hreflang).Nodup ∧
    (generateHreflangTagsList pagePath).take 6 =
      ALL_LOCALES.map (fun loc =>
        hreflangLinkTag (cfgOf loc).hreflang (localeUrl loc pagePath)) ∧
    (generateHreflangTagsList pagePath).drop 6 =
      [hreflangLinkTag "x-default" (BASE_URL ++ "/" ++ pagePath)] := by
  refine ⟨?_, by decide, by decide, by decide, ?_, ?_⟩
  · simp [generateHreflangTagsList, ALL_LOCALES, LOCALE_CONFIG]
  · simp [generateHreflangTagsList, ALL_LOCALES, LOCALE_CONFIG]
  · simp [generateHreflangTagsList, ALL_LOCALES, LOCALE_CONFIG]

/-- The source section of the staleness scenario: 12 keys. -/
def c4EnSec : List (String × String) :=
  [("k1", "a"), ("k2", "a"), ("k3", "a"), ("k4", "a"), ("k5", "a"),
   ("k6", "a"), ("k7", "a"), ("k8", "a"), ("k9", "a"), ("k10", "a"),
   ("k11", "a"), ("k12", "a")]

/-- The stale locale copy of the scenario: only 10 keys. -/
def c4LocSec : List (String × String) :=
  [("k1", "x"), ("k2", "x"), ("k3", "x"), ("k4", "x"), ("k5", "x"),
   ("k6", "x"), ("k7", "x"), ("k8", "x"), ("k9", "x"), ("k10", "x")]

/-- A full 12-key result returned by the external translator. -/
def c4Result : List (String × String) :=
  [("k1", "y"), ("k2", "y"), ("k3", "y"), ("k4", "y"), ("k5", "y"),
   ("k6", "y"), ("k7", "y"), ("k8", "y"), ("k9", "y"), ("k10", "y"),
   ("k11", "y"), ("k12", "y")]

/-- C4: the translator skips a scope exactly when an existing locale section
has the same key count as the source section; otherwise the translation
result replaces the section wholesale (`localeData[section] = result`),
never as a per-key merge. -/
theorem c4_staleness_skip_iff_key_count_equal
    (enSec : List (String × String)) (locSec : Option (List (String × String)))
    (result : Option (List (String × String))) :
    ((Translate.sectionStep enSec locSec result).2 = true ↔
      ∃ m, locSec = some m ∧ m.length = enSec.length) ∧
    (∀ m r, locSec = some m → m.length ≠ enSec.length → result = some r →
      Translate.sectionStep enSec locSec result = (some r, false)) := by
  constructor
  · unfold Translate.sectionStep Translate.sectionSkipped
    cases locSec with
    | none => cases result <;> simp
    | some m =>
      by_cases hm : m.length = enSec.length
      · simp [hm]
      · cases result <;> simp [hm]
  · intro m r hm hne hr
    subst hm
    subst hr
    unfold Translate.sectionStep Translate.sectionSkipped
    simp [hne]

/-- Witness for C4: the 12-key source against a 10-key locale copy is not
skipped and is regenerated in full. -/
theorem c4_witness :
    Translate.sectionStep c4EnSec (some c4LocSec) (some c4Result) =
      (some c4Result, false) :=
  (c4_staleness_skip_iff_key_count_equal c4EnSec (some c4LocSec)
    (some c4Result)).2 c4LocSec c4Result rfl (by decide) rfl

/-- A rendered tree in which everything passes except that the `en`
disclosure page lacks a no-index directive. -/
def c5Dist : Verify.Dist :=
  { pageFile := fun _ _ => none
    disclosure := fun loc => if loc = "en" then some "<html></html>".data else none
    indexExists := fun _ => false
    sitemap := some "<urlset><xhtml:link/></urlset>".data
    linkTargetExists := fun _ => false }

/-- C5 (counterexample): a failed no-index check on the disclosure page is
recorded as a warning, not an error — the whole run ends with zero errors
and exit code 0, so the no-index enforcement is *not* build-blocking,
contrary to the claim. -/
theorem c5_counterexample :
    Verify.checkNoindex Verify.LOCALES c5Dist = (0, 1) ∧
    Verify.runChecks Verify.LOCALES [] c5Dist = (0, 1) ∧
    Verify.exitCode Verify.LOCALES [] c5Dist = 0 := by
  refine ⟨by decide, by decide, by decide⟩

/-- A fold step that never touches the warning counter keeps it constant. -/
theorem foldl_warn_const {α : Type} (f : Nat × Nat → α → Nat × Nat)
    (hf : ∀ acc x, (f acc x).2 = acc.2) :
    ∀ (l : List α) (init : Nat × Nat), (l.foldl f init).2 = init.2 := by
  intro l
  induction l with
  | nil => intro init; rfl
  | cons a as ih =>
    intro init
    simp only [List.foldl]
    rw [ih, hf]

/-- A fold step that never touches the error counter keeps it constant. -/
theorem foldl_err_const {α : Type} (f : Nat × Nat → α → Nat × Nat)
    (hf : ∀ acc x, (f acc x).1 = acc.1) :
    ∀ (l : List α) (init : Nat × Nat), (l.foldl f init).1 = init.1 := by
  intro l
  induction l with
  | nil => intro init; rfl
  | cons a as ih =>
    intro init
    simp only [List.foldl]
    rw [ih, hf]

/-- C5 (amended): the verifier exits non-zero exactly when at least one
check recorded an error; the no-index check and the internal-link check
record only warnings; the sitemap check's errors come only from a missing
sitemap or missing `xhtml:link` entries, never from the entry-count
mismatch (which is warning-only); and the remaining five checks record
only errors, never warnings.  So the warning-downgraded failures are
link integrity, the sitemap count mismatch, *and* the disclosure
no-index check. -/
theorem c5_amended_exit_contract (locales : List String) (pages : List Page)
    (d : Verify.Dist) :
    (Verify.exitCode locales pages d = 1 ↔
      (Verify.runChecks locales pages d).1 > 0) ∧
    (Verify.exitCode locales pages d = 0 ↔
      (Verify.runChecks locales pages d).1 = 0) ∧
    (Verify.checkNoindex locales d).1 = 0 ∧
    (Verify.checkInternalLinks locales pages d).1 = 0 ∧
    ((Verify.checkSitemap locales pages d).1 =
      (match d.sitemap with
       | none => 1
       | some sm => if countLit "xhtml:link".data sm > 0 then 0 else 1) ∧
     (Verify.checkSitemap locales pages d).2 =
      (match d.sitemap with
       | none => 0
       | some sm =>
         if countLit "<url>".data sm =
             pages.length * (locales.filter d.indexExists).length
         then 0 else 1)) ∧
    (Verify.checkFileCount locales pages d).2 = 0 ∧
    (Verify.checkPlaceholders locales pages d).2 = 0 ∧
    (Verify.checkUndefined locales pages d).2 = 0 ∧
    (Verify.checkHtmlLang locales pages d).2 = 0 ∧
    (Verify.checkHreflang locales pages d).2 = 0 := by
  refine ⟨?_, ?_, ?_, ?_, ?_, ?_, ?_, ?_, ?_, ?_⟩
  · unfold Verify.exitCode
    split <;> simp <;> omega
  · unfold Verify.exitCode
    split <;> simp <;> omega
  · unfold Verify.checkNoindex
    rw [foldl_err_const]
    intro acc loc
    cases d.disclosure loc with
    | none => rfl
    | some html => dsimp only; split <;> rfl
  · unfold Verify.checkInternalLinks
    dsimp only
    split <;> rfl
  · unfold Verify.checkSitemap
    cases d.sitemap with
    | none => exact ⟨rfl, rfl⟩
    | some sm =>
      dsimp only
      constructor
      · split <;> split <;> simp
      · split <;> split <;> simp
  · unfold Verify.checkFileCount
    rw [foldl_warn_const]
    intro acc loc
    rw [foldl_warn_const]
    intro acc page
    cases d.pageFile loc page.output <;> rfl
  · unfold Verify.checkPlaceholders
    rw [foldl_warn_const]
    intro acc loc
    rw [foldl_warn_const]
    intro acc page
    cases d.pageFile loc page.output with
    | none => rfl
    | some html => dsimp only; split <;> rfl
  · unfold Verify.checkUndefined
    rw [foldl_warn_const]
    intro acc loc
    rw [foldl_warn_const]
    intro acc page
    cases d.pageFile loc page.output with
    | none => rfl
    | some html => dsimp only; split <;> rfl
  · unfold Verify.checkHtmlLang
    rw [foldl_warn_const]
    intro acc loc
    rw [foldl_warn_const]
    intro acc page
    cases d.pageFile loc page.output with
    | none => rfl
    | some html =>
      dsimp only
      cases Verify.findHtmlLang html with
      | none => rfl
      | some v => dsimp only; split <;> rfl
  · unfold Verify.checkHreflang
    rw [foldl_warn_const]
    intro acc loc
    rw [foldl_warn_const]
    intro acc page
    dsimp only
    split
    · rfl
    · cases d.pageFile loc page.output with
      | none => rfl
      | some html =>
        dsimp only
        split
        · rfl
        · split <;> rfl

/-- A page whose title is whitespace only. -/
def c6Page : List Char := "<head><title>   </title></head>".data

/-- C6 (counterexample): the `<title>` branch has no whitespace guard — on a
whitespace-only title it stores the empty string as the `meta_title`
dictionary value and rewrites the tag, contradicting both halves of the
claim. -/
theorem c6_counterexample :
    (extractMeta initState "home" c6Page).1 =
      ⟨[], [("home", [("meta_title", "")])]⟩ ∧
    (extractMeta initState "home" c6Page).2 =
      "<head><title>\x7b\x7bt.home.meta_title\x7d\x7d</title></head>".data := by
  refine ⟨by decide, by decide⟩

/-- C6 (amended): for the seven `metaTags` patterns (meta description,
keywords, Open Graph and Twitter fields) a whitespace-only value is left
untouched and produces no dictionary entry; only the `<title>` branch
extracts unconditionally and can store an empty string. -/
theorem c6_amended_meta_tags_skip_whitespace
    (pk : String) (st : LState) (html : List Char) (pat : String × String)
    (b val a : List Char)
    (hfind : findLRS pat.1.data [quoteC] (fun c => c ≠ quoteC) html =
      some (b, val, a))
    (hws : (trimL val).isEmpty = true) :
    metaTagStep pk (st, html) pat = (st, html) := by
  unfold metaTagStep
  dsimp only
  rw [hfind]
  simp [hws]

/-- Whitespace-only description tag used by the C6 witness. -/
def c6WitnessHtml : List Char :=
  "<meta name=\"description\" content=\"   \">".data

/-- Witness for the amended C6 theorem at a concrete whitespace-only
description value. -/
theorem c6_amended_witness :
    metaTagStep "home" (initState, c6WitnessHtml)
      ("<meta name=\"description\" content=\"", "meta_description") =
      (initState, c6WitnessHtml) :=
  c6_amended_meta_tags_skip_whitespace "home" initState c6WitnessHtml
    ("<meta name=\"description\" content=\"", "meta_description")
    [] "   ".data ">".data (by decide) (by decide)

/-- The structured-data block of the spec's scenario: a Brand object nested
under a reviewed product that carries a twelve-word description. -/
def c7ScenarioJson : Json :=
  Json.obj
    [("@type", Json.str "Product"),
     ("description",
       Json.str "A twelve-word description of comfort and quality here."),
     ("brand", Json.obj [("@type", Json.str "Brand"),
                         ("name", Json.str "Acme")])]

/-- The scenario block after extraction: only the description is replaced. -/
def c7ExpectedJson : Json :=
  Json.obj
    [("@type", Json.str "Product"),
     ("description", Json.str (phString "home" "jsonld_1_description_1")),
     ("brand", Json.obj [("@type", Json.str "Brand"),
                         ("name", Json.str "Acme")])]

/-- C7: in the structured-data pass a `name` field on an object whose
`@type` is `Brand` is never extracted (whatever its length), and the spec's
scenario yields exactly one dictionary key — for the description — while the
brand name stays literal. -/
theorem c7_brand_name_exemption (pk pre : String)
    (fields : List (String × Json)) (st : LState) (kidx : Nat)
    (h : lookupJ fields "@type" = some (Json.str "Brand")) :
    extractField pk pre "name" (fields, st, kidx) = (fields, st, kidx) ∧
    walkFuel "home" "jsonld_1" 10 c7ScenarioJson initState 0 =
      (c7ExpectedJson,
       ⟨[], [("home", [("jsonld_1_description_1",
         "A twelve-word description of comfort and quality here.")])]⟩, 1) := by
  constructor
  · unfold extractField
    dsimp only
    cases hname : lookupJ fields "name" with
    | none => rfl
    | some v =>
      cases v <;> try rfl
      rename_i s
      dsimp only
      simp [h, jsTruthy, brandNameTypes, ite_self]
  · rfl

/-- A Brand object with a long name, for the C7 witness. -/
def c7BrandFields : List (String × Json) :=
  [("@type", Json.str "Brand"),
   ("name", Json.str "A Very Long Brand Name Indeed")]

/-- Witness for C7: the long Brand name is left untouched. -/
theorem c7_witness :
    extractField "home" "jsonld_1" "name" (c7BrandFields, initState, 0) =
      (c7BrandFields, initState, 0) :=
  (c7_brand_name_exemption "home" "jsonld_1" c7BrandFields initState 0 rfl).1

/-- C8: the cross-locale structural blocks enumerate the statically
configured six-locale set, not the set of locales being built: the hreflang
block always has 7 entries, the language switcher 6, the Open-Graph
alternates 5 (all configured locales but the current one), and every sitemap
entry's `xhtml:link` alternates are exactly the map over `ALL_LOCALES`,
whatever subset of locales (`localeKeys`) the build loaded. -/
theorem c8_structural_blocks_use_full_locale_config
    (localeKeys : List String) (pages : List Page) (today : String) :
    (∀ pagePath, (generateHreflangTagsList pagePath).length = 7) ∧
    (∀ pagePath cur, (generateLangSwitcherLinks pagePath cur).length = 6) ∧
    (∀ cur, cur ∈ ALL_LOCALES → (generateOgLocaleAlternatesList cur).length = 5) ∧
    (∀ page loc, (sitemapEntryFor today page loc).hreflangs.length = 6 ∧
      (sitemapEntryFor today page loc).hreflangs =
        ALL_LOCALES.map (fun l => xhtmlLink (cfgOf l).hreflang
          (BASE_URL ++ "/" ++ (cfgOf l).locale_path ++ pagePathOf page.output))) ∧
    (∀ e, e ∈ generateSitemapEntries localeKeys pages today →
      ∃ page, page ∈ pages ∧ ∃ loc, loc ∈ localeKeys ∧
        e = sitemapEntryFor today page loc) := by
  refine ⟨?_, ?_, ?_, ?_, ?_⟩
  · intro p
    simp [generateHreflangTagsList, ALL_LOCALES, LOCALE_CONFIG]
  · intro p cur
    simp [generateLangSwitcherLinks, ALL_LOCALES, LOCALE_CONFIG]
  · intro cur hcur
    fin_cases hcur <;> decide
  · intro page loc
    exact ⟨rfl, rfl⟩
  · intro e he
    simp only [generateSitemapEntries, List.mem_flatMap, List.mem_map] at he
    obtain ⟨page, hp, loc, hl, rfl⟩ := he
    exact ⟨page, hp, loc, hl, rfl⟩

/-- A concrete page for the C8 witness. -/
def c8Page : Page := ⟨"home", "index.html", "index.html"⟩

/-- Witness for C8 on a single-locale build (`--locales en`). -/
theorem c8_witness :
    (generateOgLocaleAlternatesList "de").length = 5 ∧
    (∃ page, page ∈ [c8Page] ∧ ∃ loc, loc ∈ ["en"] ∧
      sitemapEntryFor "2026-01-01" c8Page "en" =
        sitemapEntryFor "2026-01-01" page loc) :=
  ⟨(c8_structural_blocks_use_full_locale_config ["en"] [c8Page]
      "2026-01-01").2.2.1 "de" (by decide),
   (c8_structural_blocks_use_full_locale_config ["en"] [c8Page]
      "2026-01-01").2.2.2.2 (sitemapEntryFor "2026-01-01" c8Page "en")
     (by simp [generateSitemapEntries])⟩

/-- C9 (counterexample): `addShared` tests JavaScript truthiness, not
presence — a shared key whose stored value is the empty string *is*
overwritten by a later add, so first-wins fails for falsy first values. -/
theorem c9_counterexample :
    getKey (addShared initState "th_total" "").shared "th_total" = some "" ∧
    addShared (addShared initState "th_total" "") "th_total" "Total" ≠
      addShared initState "th_total" "" ∧
    getKey (addShared (addShared initState "th_total" "") "th_total"
      "Total").shared "th_total" = some "Total" := by
  refine ⟨by decide, by decide, by decide⟩

/-- C9 (amended): first-wins holds for non-empty stored values — once a
shared key holds a non-empty value, every later `addShared` for that key is
a no-op, so only an empty-string first occurrence can ever be
overwritten. -/
theorem c9_amended_first_wins_nonempty (st : LState) (key v w : String)
    (h : getKey st.shared key = some v) (hv : v ≠ "") :
    addShared st key w = st := by
  unfold addShared
  rw [h]
  simp [hv]

/-- Witness for the amended C9 theorem. -/
theorem c9_witness :
    addShared ⟨[("btn_review", "Review")], []⟩ "btn_review" "Other" =
      ⟨[("btn_review", "Review")], []⟩ :=
  c9_amended_first_wins_nonempty ⟨[("btn_review", "Review")], []⟩
    "btn_review" "Review" "Other" (by decide) (by decide)

/-- C10: a placeholder whose dictionary entry is present but maps to the
empty string is replaced by the empty string with no diagnostic — the
lookup only tests presence (`!== undefined`), so rendered-empty content is
possible; concretely, a page consisting of one such placeholder renders to
the empty string with an empty diagnostic list. -/
theorem c10_present_empty_value_substituted (d : LocaleData) (sec key : String)
    (m : List Char) (v : String) (h : lookup2 d sec key = some v) :
    rtEmit d sec key m = (v.data, []) ∧
    replaceTranslations "\x7b\x7bt.home.h1\x7d\x7d" [("home", [("h1", "")])] =
      ("", []) := by
  constructor
  · unfold rtEmit
    rw [h]
  · decide

/-- Witness for C10 at the empty-string dictionary entry. -/
theorem c10_witness :
    rtEmit [("home", [("h1", "")])] "home" "h1"
      "\x7b\x7bt.home.h1\x7d\x7d".data = ("".data, []) :=
  (c10_present_empty_value_substituted [("home", [("h1", "")])] "home" "h1"
    "\x7b\x7bt.home.h1\x7d\x7d".data "" (by decide)).1
